import Mathlib

/-!
Verification development for the `ticks` Rust library, a typed client for the
TickTick Open API.  The definitions below are a shallow embedding of the
library's data model and operations (`src/lib.rs`, `src/tasks.rs`,
`src/projects.rs`, `src/builders.rs`, `src/ticktick_datetime_format.rs`):

* pure Rust functions become Lean functions;
* serde (de)serialization of the enums, resource models and builders is
  embedded field-by-field following the serde attributes on each type;
* HTTP traffic is modelled by explicit oracles (`Except`-valued functions
  standing for the network) together with call traces, so that statements
  such as "no network call is made" or "requests are issued sequentially in
  project-list order" become statements about the trace.

Machine integers of the source are modelled as `Nat`/`Int`; fallible
operations return `Option`/`Except`.
-/

namespace Ticks

/-! ## Enumerations (src/tasks.rs, src/projects.rs)

The integer-backed enums derive `Serialize_repr`/`Deserialize_repr` with
`repr(u8)`: they serialize as their literal numeric code and deserialization
matches exactly the listed codes, failing on anything else.  The
string-backed enums serialize via `rename_all` (lowercase resp. UPPERCASE)
and deserialize through `#[serde(from = "String")]`, i.e. through the total
`From<String>` impls, which fall back to the default variant. -/

inductive TaskPriority
  | none
  | low
  | medium
  | high
  deriving DecidableEq, Repr

def TaskPriority.toCode : TaskPriority → Nat
  | .none => 0
  | .low => 1
  | .medium => 3
  | .high => 5

def TaskPriority.ofCode : Nat → Option TaskPriority
  | 0 => some .none
  | 1 => some .low
  | 3 => some .medium
  | 5 => some .high
  | _ => Option.none

inductive TaskStatus
  | normal
  | completed
  deriving DecidableEq, Repr

def TaskStatus.toCode : TaskStatus → Nat
  | .normal => 0
  | .completed => 2

def TaskStatus.ofCode : Nat → Option TaskStatus
  | 0 => some .normal
  | 2 => some .completed
  | _ => none

inductive SubtaskStatus
  | normal
  | completed
  deriving DecidableEq, Repr

def SubtaskStatus.toCode : SubtaskStatus → Nat
  | .normal => 0
  | .completed => 1

def SubtaskStatus.ofCode : Nat → Option SubtaskStatus
  | 0 => some .normal
  | 1 => some .completed
  | _ => none

inductive ProjectViewMode
  | list
  | kanban
  | timeline
  deriving DecidableEq, Repr

def ProjectViewMode.toWire : ProjectViewMode → String
  | .list => "list"
  | .kanban => "kanban"
  | .timeline => "timeline"

/-- `impl From<String> for ProjectViewMode` (src/projects.rs:110-119). -/
def ProjectViewMode.fromWire (s : String) : ProjectViewMode :=
  if s = "list" then .list
  else if s = "kanban" then .kanban
  else if s = "timeline" then .timeline
  else .list

inductive ProjectUserPermissions
  | read
  | write
  | comment
  deriving DecidableEq, Repr

def ProjectUserPermissions.toWire : ProjectUserPermissions → String
  | .read => "read"
  | .write => "write"
  | .comment => "comment"

/-- `impl From<String> for ProjectUserPermissions` (src/projects.rs:130-139). -/
def ProjectUserPermissions.fromWire (s : String) : ProjectUserPermissions :=
  if s = "read" then .read
  else if s = "write" then .write
  else if s = "comment" then .comment
  else .read

inductive ProjectKind
  | task
  | note
  deriving DecidableEq, Repr

def ProjectKind.toWire : ProjectKind → String
  | .task => "TASK"
  | .note => "NOTE"

/-- `impl From<String> for ProjectKind` (src/projects.rs:149-157). -/
def ProjectKind.fromWire (s : String) : ProjectKind :=
  if s = "TASK" then .task
  else if s = "NOTE" then .note
  else .task

/-! ## Datetime codec (src/ticktick_datetime_format.rs)

The format string is `"%Y-%m-%dT%T%z"`, i.e. `YYYY-MM-DDTHH:MM:SS±HHMM`.
`serialize` formats a `DateTime<Utc>` with that pattern (so the offset part
is always `+0000`); `deserialize` parses the wire string as a
`NaiveDateTime` with the same pattern — the offset field must be present
and well-formed but its value is discarded — and reinterprets the naive
value as UTC.  Timestamps are modelled by their civil components (the
relevant library calls only format and parse them); sub-second precision
does not appear in the format, and the model covers four-digit years. -/

structure DateTimeUtc where
  year : Nat
  month : Nat
  day : Nat
  hour : Nat
  minute : Nat
  second : Nat
  deriving DecidableEq, Repr

def isLeapYear (y : Nat) : Bool :=
  (y % 4 == 0 && y % 100 != 0) || y % 400 == 0

def daysInMonth (y m : Nat) : Nat :=
  match m with
  | 1 => 31
  | 2 => if isLeapYear y then 29 else 28
  | 3 => 31
  | 4 => 30
  | 5 => 31
  | 6 => 30
  | 7 => 31
  | 8 => 31
  | 9 => 30
  | 10 => 31
  | 11 => 30
  | 12 => 31
  | _ => 0

/-- The calendar validity invariant every `DateTime<Utc>` value satisfies
(restricted to four-digit years, which is what the fixed-width format
covers). -/
def validDT (d : DateTimeUtc) : Bool :=
  decide (d.year ≤ 9999) && decide (1 ≤ d.month) && decide (d.month ≤ 12) &&
  decide (1 ≤ d.day) && decide (d.day ≤ daysInMonth d.year d.month) &&
  decide (d.hour ≤ 23) && decide (d.minute ≤ 59) && decide (d.second ≤ 59)

def digitChar (k : Nat) : Char := Char.ofNat (48 + k)

def digitVal (c : Char) : Nat := c.toNat - 48

def isDig (c : Char) : Bool := 48 ≤ c.toNat && c.toNat ≤ 57

def pad2 (n : Nat) : List Char := [digitChar (n / 10), digitChar (n % 10)]

def pad4 (n : Nat) : List Char :=
  [digitChar (n / 1000), digitChar (n / 100 % 10), digitChar (n / 10 % 10),
   digitChar (n % 10)]

/-- The `YYYY-MM-DDTHH:MM:SS` part of the wire format. -/
def formatNaive (d : DateTimeUtc) : List Char :=
  pad4 d.year ++ '-' :: pad2 d.month ++ '-' :: pad2 d.day ++
  'T' :: pad2 d.hour ++ ':' :: pad2 d.minute ++ ':' :: pad2 d.second

/-- `serialize` of the codec: format with `%Y-%m-%dT%T%z`; at `Utc` the
`%z` field renders as `+0000`. -/
def ticktickSerialize (d : DateTimeUtc) : List Char :=
  formatNaive d ++ '+' :: pad2 0 ++ pad2 0

/-- Drops leading ASCII whitespace — chrono's parser calls `trim_start()`
before every numeric field and before the offset (the model covers the
ASCII whitespace characters). -/
def trimWS (cs : List Char) : List Char := cs.dropWhile (·.isWhitespace)

/-- Greedily takes at most `width` leading digits. -/
def takeDigits : Nat → List Char → List Char × List Char
  | 0, cs => ([], cs)
  | _ + 1, [] => ([], [])
  | w + 1, c :: cs =>
    if isDig c then
      let p := takeDigits w cs
      (c :: p.1, p.2)
    else ([], c :: cs)

def digitsVal (ds : List Char) : Nat :=
  ds.foldl (fun a c => 10 * a + digitVal c) 0

/-- chrono's `scan::number(s, 1, width)` preceded by `trim_start()`: skips
whitespace, then reads one up to `width` digits, greedily — so unpadded
fields such as a one-digit month are accepted by the program. -/
def pNum (width : Nat) (cs : List Char) : Option (Nat × List Char) :=
  let cs2 := trimWS cs
  let p := takeDigits width cs2
  if p.1.isEmpty then none else some (digitsVal p.1, p.2)

/-- Format literals (`-`, `T`, `:`) must match exactly; chrono does not
skip whitespace before a literal. -/
def expectChar (c : Char) : List Char → Option (List Char)
  | c0 :: rest => if c0 = c then some rest else none
  | [] => none

def isColonOrWS (c : Char) : Bool := c == ':' || c.isWhitespace

/-- chrono's `scan::timezone_offset` with `colon_or_space`, as `%z`
parses: optional whitespace, a mandatory `+`/`-` sign, exactly two hour
digits, any run of colons and whitespace, and exactly two minute digits
with minutes 00-59 (a 6-9 in the tens place is rejected).  The offset
value is discarded, since `NaiveDateTime` parsing ignores it. -/
def pOffset (cs : List Char) : Option (List Char) :=
  match trimWS cs with
  | c :: h1 :: h2 :: rest =>
    if (c == '+' || c == '-') && isDig h1 && isDig h2 then
      match rest.dropWhile isColonOrWS with
      | m1 :: m2 :: rest2 =>
        if isDig m1 && isDig m2 && decide (digitVal m1 ≤ 5) then some rest2
        else none
      | _ => none
    else none
  | _ => none

/-- Parses `%Y-%m-%d` leniently (fields unpadded and whitespace-preceded,
as chrono allows), returning year, month, day and the rest.  The model
covers the unsigned-year path (one to four digits); chrono additionally
accepts an explicitly signed year. -/
def parseDate (cs : List Char) : Option (Nat × Nat × Nat × List Char) :=
  (pNum 4 cs).bind fun py =>
  (expectChar '-' py.2).bind fun r2 =>
  (pNum 2 r2).bind fun pmo =>
  (expectChar '-' pmo.2).bind fun r4 =>
  (pNum 2 r4).bind fun pd =>
  some (py.1, pmo.1, pd.1, pd.2)

/-- Parses the literal `T` and then `%T` = `%H:%M:%S` leniently, returning
hour, minute, second and the rest. -/
def parseTime (cs : List Char) : Option (Nat × Nat × Nat × List Char) :=
  (expectChar 'T' cs).bind fun r6 =>
  (pNum 2 r6).bind fun ph =>
  (expectChar ':' ph.2).bind fun r8 =>
  (pNum 2 r8).bind fun pmi =>
  (expectChar ':' pmi.2).bind fun r10 =>
  (pNum 2 r10).bind fun ps =>
  some (ph.1, pmi.1, ps.1, ps.2)

/-- `deserialize` of the codec: `NaiveDateTime::parse_from_str` with
`%Y-%m-%dT%T%z`, then `from_naive_utc_and_offset(dt, Utc)`.  chrono's
parsing is lenient, not fixed-width: numeric fields may be unpadded and
preceded by whitespace, and the offset may contain colons — but the whole
input must be consumed and the components must form a valid calendar
date-time.  The parsed offset is discarded and the naive value returned
as UTC.  Model scope: unsigned years of at most four digits (chrono also
accepts an explicitly signed year) and seconds 00-59 (chrono maps a `60`
in the seconds field to a leap second, which carries a sub-second
component). -/
def ticktickParse (cs : List Char) : Option DateTimeUtc :=
  (parseDate cs).bind fun pd =>
  (parseTime pd.2.2.2).bind fun pt =>
  (pOffset pt.2.2.2).bind fun rest =>
  if rest = [] then
    if validDT ⟨pd.1, pd.2.1, pd.2.2.1, pt.1, pt.2.1, pt.2.2.1⟩ then
      some ⟨pd.1, pd.2.1, pd.2.2.1, pt.1, pt.2.1, pt.2.2.1⟩
    else none
  else none

theorem digitChar_toNat {k : Nat} (h : k < 10) : (digitChar k).toNat = 48 + k := by
  interval_cases k <;> decide

theorem isDig_digitChar {k : Nat} (h : k < 10) : isDig (digitChar k) = true := by
  simp [isDig, digitChar_toNat h]; omega

theorem digitVal_digitChar {k : Nat} (h : k < 10) : digitVal (digitChar k) = k := by
  simp [digitVal, digitChar_toNat h]

theorem digitChar_not_ws {k : Nat} (h : k < 10) :
    (digitChar k).isWhitespace = false := by
  interval_cases k <;> decide

theorem digitChar_not_colonws {k : Nat} (h : k < 10) :
    isColonOrWS (digitChar k) = false := by
  interval_cases k <;> decide

theorem trimWS_pad2 {n : Nat} (h : n < 100) (r : List Char) :
    trimWS (pad2 n ++ r) = pad2 n ++ r := by
  have h1 : n / 10 < 10 := by omega
  simp [pad2, trimWS, List.dropWhile_cons, digitChar_not_ws h1]

theorem trimWS_pad4 {n : Nat} (h : n < 10000) (r : List Char) :
    trimWS (pad4 n ++ r) = pad4 n ++ r := by
  have h1 : n / 1000 < 10 := by omega
  simp [pad4, trimWS, List.dropWhile_cons, digitChar_not_ws h1]

theorem takeDigits_pad2 {n : Nat} (h : n < 100) (r : List Char) :
    takeDigits 2 (pad2 n ++ r) = (pad2 n, r) := by
  have h1 : n / 10 < 10 := by omega
  have h2 : n % 10 < 10 := by omega
  simp [pad2, takeDigits, isDig_digitChar h1, isDig_digitChar h2]

theorem takeDigits_pad4 {n : Nat} (h : n < 10000) (r : List Char) :
    takeDigits 4 (pad4 n ++ r) = (pad4 n, r) := by
  have h1 : n / 1000 < 10 := by omega
  have h2 : n / 100 % 10 < 10 := by omega
  have h3 : n / 10 % 10 < 10 := by omega
  have h4 : n % 10 < 10 := by omega
  simp [pad4, takeDigits, isDig_digitChar h1, isDig_digitChar h2,
    isDig_digitChar h3, isDig_digitChar h4]

theorem digitsVal_pad2 {n : Nat} (h : n < 100) : digitsVal (pad2 n) = n := by
  have h1 : n / 10 < 10 := by omega
  have h2 : n % 10 < 10 := by omega
  simp [pad2, digitsVal, List.foldl, digitVal_digitChar h1,
    digitVal_digitChar h2]
  omega

theorem digitsVal_pad4 {n : Nat} (h : n < 10000) : digitsVal (pad4 n) = n := by
  have h1 : n / 1000 < 10 := by omega
  have h2 : n / 100 % 10 < 10 := by omega
  have h3 : n / 10 % 10 < 10 := by omega
  have h4 : n % 10 < 10 := by omega
  simp [pad4, digitsVal, List.foldl, digitVal_digitChar h1,
    digitVal_digitChar h2, digitVal_digitChar h3, digitVal_digitChar h4]
  omega

theorem pad2_isEmpty (n : Nat) : (pad2 n).isEmpty = false := by
  simp [pad2]

theorem pad4_isEmpty (n : Nat) : (pad4 n).isEmpty = false := by
  simp [pad4]

theorem pNum_pad2 {n : Nat} (h : n < 100) (r : List Char) :
    pNum 2 (pad2 n ++ r) = some (n, r) := by
  simp [pNum, trimWS_pad2 h, takeDigits_pad2 h, digitsVal_pad2 h,
    pad2_isEmpty]

theorem pNum_pad4 {n : Nat} (h : n < 10000) (r : List Char) :
    pNum 4 (pad4 n ++ r) = some (n, r) := by
  simp [pNum, trimWS_pad4 h, takeDigits_pad4 h, digitsVal_pad4 h,
    pad4_isEmpty]

theorem expectChar_cons (c : Char) (r : List Char) :
    expectChar c (c :: r) = some r := by
  simp [expectChar]

theorem daysInMonth_le (y m : Nat) : daysInMonth y m ≤ 31 := by
  rcases m with _|_|_|_|_|_|_|_|_|_|_|_|_|m <;> simp [daysInMonth] <;> split <;> omega

theorem pOffset_pads {o1 o2 : Nat} (h1 : o1 < 100) (h2 : o2 < 60)
    (sgn : Char) (hs : sgn = '+' ∨ sgn = '-') (r : List Char) :
    pOffset (sgn :: (pad2 o1 ++ (pad2 o2 ++ r))) = some r := by
  have a1 : o1 / 10 < 10 := by omega
  have a2 : o1 % 10 < 10 := by omega
  have b1 : o2 / 10 < 10 := by omega
  have b2 : o2 % 10 < 10 := by omega
  have hm : o2 / 10 ≤ 5 := by omega
  rcases hs with h | h
  · subst h
    simp [pOffset, trimWS, List.dropWhile_cons, pad2,
      show ('+' : Char).isWhitespace = false from by decide,
      isDig_digitChar a1, isDig_digitChar a2, isDig_digitChar b1,
      isDig_digitChar b2, digitChar_not_colonws b1, digitVal_digitChar b1, hm]
  · subst h
    simp [pOffset, trimWS, List.dropWhile_cons, pad2,
      show ('-' : Char).isWhitespace = false from by decide,
      isDig_digitChar a1, isDig_digitChar a2, isDig_digitChar b1,
      isDig_digitChar b2, digitChar_not_colonws b1, digitVal_digitChar b1, hm]

theorem pOffset_pads_nil {o1 o2 : Nat} (h1 : o1 < 100) (h2 : o2 < 60)
    (sgn : Char) (hs : sgn = '+' ∨ sgn = '-') :
    pOffset (sgn :: (pad2 o1 ++ pad2 o2)) = some [] := by
  have hp := pOffset_pads h1 h2 sgn hs []
  simpa using hp

theorem parseDate_pads {y mo d : Nat} (hy : y < 10000) (hmo : mo < 100)
    (hd : d < 100) (r : List Char) :
    parseDate (pad4 y ++ '-' :: (pad2 mo ++ '-' :: (pad2 d ++ r))) =
      some (y, mo, d, r) := by
  simp [parseDate, pNum_pad4 hy, pNum_pad2 hmo, pNum_pad2 hd, expectChar_cons]

theorem parseTime_pads {h mi s : Nat} (hh : h < 100) (hmi : mi < 100)
    (hs : s < 100) (r : List Char) :
    parseTime ('T' :: (pad2 h ++ ':' :: (pad2 mi ++ ':' :: (pad2 s ++ r)))) =
      some (h, mi, s, r) := by
  simp [parseTime, pNum_pad2 hh, pNum_pad2 hmi, pNum_pad2 hs, expectChar_cons]

/-- Parsing a fully padded wire string recovers the naive components and
ignores the offset digits entirely: the naive value is taken as UTC. -/
theorem ticktickParse_format (d : DateTimeUtc) (hv : validDT d = true)
    (sgn : Char) (hs : sgn = '+' ∨ sgn = '-') (o1 o2 : Nat)
    (h1 : o1 < 100) (h2 : o2 < 60) :
    ticktickParse (formatNaive d ++ sgn :: (pad2 o1 ++ pad2 o2)) = some d := by
  have hb := hv
  simp only [validDT, Bool.and_eq_true, decide_eq_true_eq] at hb
  obtain ⟨⟨⟨⟨⟨⟨⟨hy, hm1⟩, hm2⟩, hd1⟩, hd2⟩, hh⟩, hmi⟩, hs59⟩ := hb
  have hday : d.day < 100 := by
    have hdm := daysInMonth_le d.year d.month; omega
  have hshape : formatNaive d ++ sgn :: (pad2 o1 ++ pad2 o2) =
      pad4 d.year ++ '-' :: (pad2 d.month ++ '-' :: (pad2 d.day ++
        ('T' :: (pad2 d.hour ++ ':' :: (pad2 d.minute ++ ':' ::
          (pad2 d.second ++ sgn :: (pad2 o1 ++ pad2 o2))))))) := by
    simp [formatNaive]
  rw [hshape]
  simp only [ticktickParse,
    parseDate_pads (show d.year < 10000 by omega) (show d.month < 100 by omega)
      hday,
    Option.some_bind,
    parseTime_pads (show d.hour < 100 by omega) (show d.minute < 100 by omega)
      (show d.second < 100 by omega),
    pOffset_pads_nil h1 h2 sgn hs]
  simp [hv]

/-- C4: for every enum, decoding its encoding yields the original variant;
unknown wire values make the string-backed enums (`ProjectViewMode`,
`ProjectUserPermissions`, `ProjectKind`) fall back to their default variant
(`List`, `Read`, `Task`) without error, while the integer-backed enums
(`TaskPriority` 0/1/3/5, `TaskStatus` 0/2, `SubtaskStatus` 0/1) fail
deserialization on any unknown code. -/
theorem claim_C4_enum_roundtrip :
    (∀ p : TaskPriority, TaskPriority.ofCode p.toCode = some p) ∧
    (∀ t : TaskStatus, TaskStatus.ofCode t.toCode = some t) ∧
    (∀ t : SubtaskStatus, SubtaskStatus.ofCode t.toCode = some t) ∧
    (∀ v : ProjectViewMode, ProjectViewMode.fromWire v.toWire = v) ∧
    (∀ v : ProjectUserPermissions,
      ProjectUserPermissions.fromWire v.toWire = v) ∧
    (∀ v : ProjectKind, ProjectKind.fromWire v.toWire = v) ∧
    (∀ s : String, s ≠ "list" → s ≠ "kanban" → s ≠ "timeline" →
      ProjectViewMode.fromWire s = ProjectViewMode.list) ∧
    (∀ s : String, s ≠ "read" → s ≠ "write" → s ≠ "comment" →
      ProjectUserPermissions.fromWire s = ProjectUserPermissions.read) ∧
    (∀ s : String, s ≠ "TASK" → s ≠ "NOTE" →
      ProjectKind.fromWire s = ProjectKind.task) ∧
    (∀ n : Nat, n ≠ 0 → n ≠ 1 → n ≠ 3 → n ≠ 5 →
      TaskPriority.ofCode n = none) ∧
    (∀ n : Nat, n ≠ 0 → n ≠ 2 → TaskStatus.ofCode n = none) ∧
    (∀ n : Nat, n ≠ 0 → n ≠ 1 → SubtaskStatus.ofCode n = none) := by
  refine ⟨fun p => by cases p <;> rfl, fun t => by cases t <;> rfl,
    fun t => by cases t <;> rfl, fun v => by cases v <;> rfl,
    fun v => by cases v <;> rfl, fun v => by cases v <;> rfl,
    ?_, ?_, ?_, ?_, ?_, ?_⟩
  · intro s h1 h2 h3; simp [ProjectViewMode.fromWire, h1, h2, h3]
  · intro s h1 h2 h3; simp [ProjectUserPermissions.fromWire, h1, h2, h3]
  · intro s h1 h2; simp [ProjectKind.fromWire, h1, h2]
  · intro n h0 h1 h3 h5
    rcases n with _|_|_|_|_|_|m
    · exact absurd rfl h0
    · exact absurd rfl h1
    · rfl
    · exact absurd rfl h3
    · rfl
    · exact absurd rfl h5
    · rfl
  · intro n h0 h2
    rcases n with _|_|_|m
    · exact absurd rfl h0
    · rfl
    · exact absurd rfl h2
    · rfl
  · intro n h0 h1
    rcases n with _|_|m
    · exact absurd rfl h0
    · exact absurd rfl h1
    · rfl

theorem claim_C4_enum_roundtrip_witness :
    TaskPriority.ofCode 2 = none ∧
    TaskStatus.ofCode 7 = none ∧
    SubtaskStatus.ofCode 9 = none ∧
    ProjectViewMode.fromWire "weird" = ProjectViewMode.list ∧
    ProjectUserPermissions.fromWire "" = ProjectUserPermissions.read ∧
    ProjectKind.fromWire "task" = ProjectKind.task := by
  obtain ⟨-, -, -, -, -, -, hvm, hperm, hkind, hpri, hts, hsts⟩ :=
    claim_C4_enum_roundtrip
  exact ⟨hpri 2 (by decide) (by decide) (by decide) (by decide),
    hts 7 (by decide) (by decide),
    hsts 9 (by decide) (by decide),
    hvm "weird" (by decide) (by decide) (by decide),
    hperm "" (by decide) (by decide) (by decide),
    hkind "task" (by decide) (by decide)⟩

/-- C5 counterexample: chrono's parser is lenient, not fixed-pattern.
`"2024-5-17T12:34:56+0000"` has a one-digit month — 23 characters, while
every string of the fixed pattern `YYYY-MM-DDTHH:MM:SS±HHMM` has 24 — and
parses successfully, and differs from the canonical rendering of the very
value it produces; `"2024-05-17T12:34:56+00:00"` (colon inside the
offset) and `"2024-05-17T12:34:56 +0000"` (whitespace before the offset)
parse as well. -/
theorem claim_C5_datetime_codec_cex :
    ticktickParse ("2024-5-17T12:34:56+0000").data =
      some ⟨2024, 5, 17, 12, 34, 56⟩ ∧
    ("2024-5-17T12:34:56+0000").data.length = 23 ∧
    ("2024-5-17T12:34:56+0000").data ≠
      ticktickSerialize ⟨2024, 5, 17, 12, 34, 56⟩ ∧
    ticktickParse ("2024-05-17T12:34:56+00:00").data =
      some ⟨2024, 5, 17, 12, 34, 56⟩ ∧
    ticktickParse ("2024-05-17T12:34:56 +0000").data =
      some ⟨2024, 5, 17, 12, 34, 56⟩ :=
  ⟨by decide, by decide, by decide, by decide, by decide⟩

/-- C5 (amended): serializing a UTC timestamp (zero sub-second component;
the model covers four-digit years) and parsing the result yields the
original timestamp, and any successful parse ignores the offset digits
entirely, interpreting the naive value as UTC — but acceptance is NOT
limited to the fixed pattern: the parser takes unpadded fields,
whitespace before numeric fields and colons inside the offset.  Strings
outside the lenient grammar still fail: the empty string, a date without
a time, a `Z` suffix, an offset with minutes 60, an invalid calendar
date. -/
theorem claim_C5_datetime_codec :
    (∀ d : DateTimeUtc, validDT d = true →
      ticktickParse (ticktickSerialize d) = some d) ∧
    (∀ (d : DateTimeUtc) (sgn : Char) (o1 o2 : Nat), validDT d = true →
      (sgn = '+' ∨ sgn = '-') → o1 < 100 → o2 < 60 →
      ticktickParse (formatNaive d ++ sgn :: (pad2 o1 ++ pad2 o2)) =
        some d) ∧
    ticktickParse ("").data = none ∧
    ticktickParse ("2024-05-17").data = none ∧
    ticktickParse ("2024-05-17T12:34:56Z").data = none ∧
    ticktickParse ("2024-05-17T12:34:56+0060").data = none ∧
    ticktickParse ("2024-13-01T00:00:00+0000").data = none := by
  refine ⟨?_, ?_, by decide, by decide, by decide, by decide, by decide⟩
  · intro d hv
    have h := ticktickParse_format d hv '+' (Or.inl rfl) 0 0 (by omega)
      (by omega)
    simpa [ticktickSerialize] using h
  · intro d sgn o1 o2 hv hsgn h1 h2
    exact ticktickParse_format d hv sgn hsgn o1 o2 h1 h2

theorem claim_C5_datetime_codec_witness :
    ticktickParse (ticktickSerialize ⟨2024, 5, 17, 12, 34, 56⟩) =
      some ⟨2024, 5, 17, 12, 34, 56⟩ ∧
    ticktickParse (formatNaive ⟨2024, 5, 17, 12, 34, 56⟩ ++
      '-' :: (pad2 9 ++ pad2 30)) = some ⟨2024, 5, 17, 12, 34, 56⟩ :=
  ⟨claim_C5_datetime_codec.1 ⟨2024, 5, 17, 12, 34, 56⟩ (by decide),
   claim_C5_datetime_codec.2.1 ⟨2024, 5, 17, 12, 34, 56⟩ '-' 9 30 (by decide)
     (Or.inr rfl) (by omega) (by omega)⟩

/-! ## Resource models (src/tasks.rs, src/projects.rs)

The `http_client` field carried by `Task` and `Project` in the source is a
handle to the shared HTTP client; it is `#[serde(skip)]`, never serialized,
and plays no role in any claim, so the model omits it and passes network
oracles explicitly instead. -/

structure TaskID where
  val : String
  deriving DecidableEq, Repr

structure SubtaskID where
  val : String
  deriving DecidableEq, Repr

structure ProjectID where
  val : String
  deriving DecidableEq, Repr

structure GroupID where
  val : String
  deriving DecidableEq, Repr

structure ColumnID where
  val : String
  deriving DecidableEq, Repr

structure Subtask where
  id : SubtaskID
  title : String
  status : SubtaskStatus
  completed_time : DateTimeUtc
  is_all_day : Bool
  sort_order : Int
  start_date : DateTimeUtc
  time_zone : String
  deriving DecidableEq, Repr

structure Task where
  id : TaskID
  project_id : ProjectID
  title : String
  is_all_day : Bool
  completed_time : DateTimeUtc
  content : String
  desc : String
  due_date : DateTimeUtc
  subtasks : List Subtask
  priority : TaskPriority
  reminders : List String
  repeat_flag : String
  sort_order : Int
  start_date : DateTimeUtc
  status : TaskStatus
  time_zone : String
  tags : List String
  deriving DecidableEq, Repr

structure Project where
  id : ProjectID
  name : String
  color : String
  sort_order : Int
  closed : Bool
  group_id : GroupID
  view_mode : ProjectViewMode
  permission : ProjectUserPermissions
  kind : ProjectKind
  deriving DecidableEq, Repr

structure Column where
  id : ColumnID
  project_id : ProjectID
  name : String
  sort_order : Int
  deriving DecidableEq, Repr

structure ProjectData where
  tasks : List Task
  columns : List Column
  deriving DecidableEq, Repr

/-- `DateTime::<Utc>::default()` is the Unix epoch. -/
def epochDT : DateTimeUtc := ⟨1970, 1, 1, 0, 0, 0⟩

/-- `Subtask::default()` per `#[derive(Default)]`. -/
def subtaskDefault : Subtask :=
  ⟨⟨""⟩, "", .normal, epochDT, false, 0, epochDT, ""⟩

/-- `Task::default()` per `#[derive(Default)]`. -/
def taskDefault : Task :=
  ⟨⟨""⟩, ⟨""⟩, "", false, epochDT, "", "", epochDT, [], .none, [], "", 0,
   epochDT, .normal, "", []⟩

/-- `Project::default()` per `#[derive(Default)]`. -/
def projectDefault : Project :=
  ⟨⟨""⟩, "", "", 0, false, ⟨""⟩, .list, .read, .task⟩

/-! ## Request URLs

Each operation builds its URL with `format!` on a string literal; these
functions are those literals.  All of them embed the fixed base
`https://ticktick.com` — except `Task::complete` (src/tasks.rs:135-138),
whose format string starts directly with `/open/...`. -/

def baseUrl : String := "https://ticktick.com"

def getProjectDataUrl (pid : String) : String :=
  "https://ticktick.com/open/v1/project/" ++ pid ++ "/data"

def getTaskUrl (pid tid : String) : String :=
  "https://ticktick.com/open/v1/project/" ++ pid ++ "/task/" ++ tid

def getProjectUrl (pid : String) : String :=
  "https://ticktick.com/open/v1/project/" ++ pid

def allProjectsUrl : String := "https://ticktick.com/open/v1/project/"

def deleteTaskUrl (pid tid : String) : String :=
  "https://ticktick.com/open/v1/project/" ++ pid ++ "/task/" ++ tid

def updateTaskUrl (tid : String) : String :=
  "https://ticktick.com/open/v1/task/" ++ tid

/-- URL built by `Task::complete` — the only one missing the base. -/
def completeTaskUrl (pid tid : String) : String :=
  "/open/v1/project/" ++ pid ++ "/task/" ++ tid ++ "/complete"

def createTaskUrl : String := "https://ticktick.com/open/v1/task"

def createProjectUrl : String := "https://ticktick.com/open/v1/project"

def updateProjectUrl (pid : String) : String :=
  "https://ticktick.com/open/v1/project/" ++ pid

def oauthAuthorizeUrl : String := "https://ticktick.com/oauth/authorize"

def oauthTokenUrl : String := "https://ticktick.com/oauth/token"

/-! ## HTTP model

The network is an oracle producing either a `reqwest::Error` (transport
failure) or a response; a response has a status code and a payload result
standing for what `Response::json::<T>()` / `Response::text()` returns.
Note that `Response::json` and `Response::text` return `reqwest::Error`
themselves on a malformed body — not `serde_json::Error`. -/

inductive ReqwestError
  | connect
  | status (code : Nat)
  | decode
  | body
  deriving DecidableEq, Repr

/-- `TickTickError` (src/lib.rs:18-21). -/
inductive TickTickError
  | clientError (e : ReqwestError)
  | responseParseError (e : String)
  deriving DecidableEq, Repr

structure WireResponse (α : Type) where
  status : Nat
  payload : Except ReqwestError α

/-- `Response::error_for_status`: errors exactly on 4xx/5xx codes (HTTP
status codes are below 600). -/
def errorForStatus {α : Type} (r : WireResponse α) :
    Except ReqwestError (WireResponse α) :=
  if 400 ≤ r.status then .error (.status r.status) else .ok r

/-- Shared response pipeline of `get_task` / `get_project` /
`get_project_data` (src/lib.rs): `send().await?.error_for_status()?` then
`resp.json::<T>().await?`.  Every `?` converts through
`From<reqwest::Error> for TickTickError`, i.e. to `ClientError`. -/
def fetchJson {α : Type} (net : Except ReqwestError (WireResponse α)) :
    Except TickTickError α :=
  match net with
  | .error e => .error (.clientError e)
  | .ok resp =>
    match errorForStatus resp with
    | .error e => .error (.clientError e)
    | .ok r2 =>
      match r2.payload with
      | .error e => .error (.clientError e)
      | .ok v => .ok v

/-- `TickTick::get_task` (src/lib.rs:83-100), response handling. -/
def getTaskOp (net : Except ReqwestError (WireResponse Task)) :
    Except TickTickError Task :=
  fetchJson net

/-- `TickTick::get_project` (src/lib.rs:114-127), response handling. -/
def getProjectOp (net : Except ReqwestError (WireResponse Project)) :
    Except TickTickError Project :=
  fetchJson net

/-- `TickTick::get_project_data` (src/lib.rs:61-80), response handling. -/
def getProjectDataOp (net : Except ReqwestError (WireResponse ProjectData)) :
    Except TickTickError ProjectData :=
  fetchJson net

/-- `TickTick::get_all_projects` (src/lib.rs:131-143): `send().await?`
followed directly by `.json::<Vec<Project>>().await?` — there is no
`error_for_status` call in this operation. -/
def getAllProjectsOp (net : Except ReqwestError (WireResponse (List Project))) :
    Except TickTickError (List Project) :=
  match net with
  | .error e => .error (.clientError e)
  | .ok resp =>
    match resp.payload with
    | .error e => .error (.clientError e)
    | .ok v => .ok v

/-! ## Fan-out: `get_all_tasks_in_projects` (src/lib.rs:103-110)

The network oracle is indexed by operation; a trace of issued calls is
returned alongside the result, so "fetched once" and "sequential, in
project-list order" are provable statements. -/

inductive NetCall
  | allProjects
  | projectData (pid : ProjectID)
  deriving DecidableEq, Repr

structure Net where
  allProjects : Except TickTickError (List Project)
  projectData : ProjectID → Except TickTickError ProjectData

/-- `Project::get_tasks` (src/projects.rs:75-77): fetch the project's data
and keep only the tasks. -/
def Project.get_tasks (net : Net) (p : Project) :
    Except TickTickError (List Task) :=
  (net.projectData p.id).map (·.tasks)

/-- The `for proj in projects { value.append(&mut proj.get_tasks().await?) }`
loop, with `acc` playing the role of `value`. -/
def getAllTasksLoop (net : Net) :
    List Project → List Task → Except TickTickError (List Task) × List NetCall
  | [], acc => (.ok acc, [])
  | p :: rest, acc =>
    match Project.get_tasks net p with
    | .error e => (.error e, [.projectData p.id])
    | .ok ts =>
      let r := getAllTasksLoop net rest (acc ++ ts)
      (r.1, .projectData p.id :: r.2)

/-- `TickTick::get_all_tasks_in_projects`. -/
def get_all_tasks_in_projects (net : Net) :
    Except TickTickError (List Task) × List NetCall :=
  match net.allProjects with
  | .error e => (.error e, [.allProjects])
  | .ok ps =>
    let r := getAllTasksLoop net ps []
    (r.1, .allProjects :: r.2)

/-! ## Instance operations on Task / Project -/

/-- Response handling shared by `Task::publish_changes` (src/tasks.rs:119-128)
and `Project::publish_changes` (src/projects.rs:86-98):
`send().await?.text().await?` then `Ok(())` — the status code is never
inspected. -/
def publishPipeline (resp : Except ReqwestError (WireResponse String)) :
    Except ReqwestError Unit :=
  match resp with
  | .error e => .error e
  | .ok r =>
    match r.payload with
    | .error e => .error e
    | .ok _ => .ok ()

/-- `Task::publish_changes`: POST the full task to its update URL. -/
def Task.publish_changes (t : Task)
    (net : String → Except ReqwestError (WireResponse String)) :
    Except ReqwestError Unit :=
  publishPipeline (net (updateTaskUrl t.id.val))

/-- `Project::publish_changes`: POST the full project to its update URL. -/
def Project.publish_changes (p : Project)
    (net : String → Except ReqwestError (WireResponse String)) :
    Except ReqwestError Unit :=
  publishPipeline (net (updateProjectUrl p.id.val))

/-- `Task::complete` (src/tasks.rs:132-144): sets `self.status = Completed`
FIRST, then POSTs `self` (the already-mutated task) to the completion URL
and checks `error_for_status`.  Returns the task as left behind by the
method, the issued request (URL and JSON body) and the result. -/
def Task.complete (t : Task)
    (net : String → Task → Except ReqwestError (WireResponse Unit)) :
    Task × List (String × Task) × Except ReqwestError Unit :=
  let t' := { t with status := TaskStatus.completed }
  let resp := net (completeTaskUrl t.project_id.val t.id.val) t'
  (t', [(completeTaskUrl t.project_id.val t.id.val, t')],
   match resp with
   | .error e => .error e
   | .ok r =>
     match errorForStatus r with
     | .error e => .error e
     | .ok _ => .ok ())

/-! ## JSON deserialization of the resource models

`Task`, `Subtask` and `Project` all carry `#[serde(default)]` at container
level, so for every field absent from the incoming JSON object serde fills
in that field's value from the type's `Default`; a field that IS present
is decoded by its own deserializer (which for the datetime fields is the
strict codec above, for the integer enums the exact-code match, for the
string enums the total fallback conversion) and only such a field can make
deserialization fail. -/

inductive Json
  | str (s : String)
  | num (n : Int)
  | jbool (b : Bool)
  | arr (xs : List Json)
  | obj (fields : List (String × Json))
  | null

/-- First binding of a key in a JSON object. -/
def getField : List (String × Json) → String → Option Json
  | [], _ => none
  | (k, v) :: rest, n => if k = n then some v else getField rest n

/-- serde's per-field behaviour under container-level `default`: an absent
field takes the default, a present one runs the field's deserializer. -/
def decodeField {α : Type} (fs : List (String × Json)) (name : String)
    (dec : Json → Except String α) (dflt : α) : Except String α :=
  match getField fs name with
  | none => .ok dflt
  | some v => dec v

def decodeString : Json → Except String String
  | .str s => .ok s
  | _ => .error "expected string"

def decodeBool : Json → Except String Bool
  | .jbool b => .ok b
  | _ => .error "expected bool"

def decodeInt : Json → Except String Int
  | .num n => .ok n
  | _ => .error "expected integer"

def decodeTaskID : Json → Except String TaskID
  | .str s => .ok ⟨s⟩
  | _ => .error "expected string"

def decodeSubtaskID : Json → Except String SubtaskID
  | .str s => .ok ⟨s⟩
  | _ => .error "expected string"

def decodeProjectID : Json → Except String ProjectID
  | .str s => .ok ⟨s⟩
  | _ => .error "expected string"

def decodeGroupID : Json → Except String GroupID
  | .str s => .ok ⟨s⟩
  | _ => .error "expected string"

/-- Datetime field: a string in the fixed format, else failure. -/
def decodeDT : Json → Except String DateTimeUtc
  | .str s =>
    match ticktickParse s.data with
    | some d => .ok d
    | none => .error "datetime parse error"
  | _ => .error "expected string"

def decodePriority : Json → Except String TaskPriority
  | .num n =>
    if 0 ≤ n then
      match TaskPriority.ofCode n.toNat with
      | some p => .ok p
      | none => .error "unknown priority code"
    else .error "unknown priority code"
  | _ => .error "expected integer"

def decodeTaskStatus : Json → Except String TaskStatus
  | .num n =>
    if 0 ≤ n then
      match TaskStatus.ofCode n.toNat with
      | some p => .ok p
      | none => .error "unknown status code"
    else .error "unknown status code"
  | _ => .error "expected integer"

def decodeSubtaskStatus : Json → Except String SubtaskStatus
  | .num n =>
    if 0 ≤ n then
      match SubtaskStatus.ofCode n.toNat with
      | some p => .ok p
      | none => .error "unknown status code"
    else .error "unknown status code"
  | _ => .error "expected integer"

def decodeViewMode : Json → Except String ProjectViewMode
  | .str s => .ok (ProjectViewMode.fromWire s)
  | _ => .error "expected string"

def decodePermissions : Json → Except String ProjectUserPermissions
  | .str s => .ok (ProjectUserPermissions.fromWire s)
  | _ => .error "expected string"

def decodeKind : Json → Except String ProjectKind
  | .str s => .ok (ProjectKind.fromWire s)
  | _ => .error "expected string"

def decodeStringsLoop : List Json → Except String (List String)
  | [] => .ok []
  | x :: rest =>
    match decodeString x with
    | .error e => .error e
    | .ok s =>
      match decodeStringsLoop rest with
      | .error e => .error e
      | .ok ss => .ok (s :: ss)

def decodeStringList : Json → Except String (List String)
  | .arr xs => decodeStringsLoop xs
  | _ => .error "expected array"

/-- Decodes the first half of a `Subtask` object (fields in struct
order). -/
def decodeSubtaskPartA (fs : List (String × Json)) :
    Except String (SubtaskID × String × SubtaskStatus × DateTimeUtc) :=
  match decodeField fs "id" decodeSubtaskID ⟨""⟩ with
  | .error e => .error e
  | .ok id =>
    match decodeField fs "title" decodeString "" with
    | .error e => .error e
    | .ok title =>
      match decodeField fs "status" decodeSubtaskStatus .normal with
      | .error e => .error e
      | .ok status =>
        match decodeField fs "completedTime" decodeDT epochDT with
        | .error e => .error e
        | .ok ct => .ok (id, title, status, ct)

/-- Decodes the second half of a `Subtask` object. -/
def decodeSubtaskPartB (fs : List (String × Json)) :
    Except String (Bool × Int × DateTimeUtc × String) :=
  match decodeField fs "isAllDay" decodeBool false with
  | .error e => .error e
  | .ok ad =>
    match decodeField fs "sortOrder" decodeInt 0 with
    | .error e => .error e
    | .ok so =>
      match decodeField fs "startDate" decodeDT epochDT with
      | .error e => .error e
      | .ok sd =>
        match decodeField fs "timeZone" decodeString "" with
        | .error e => .error e
        | .ok tz => .ok (ad, so, sd, tz)

/-- serde deserialization of `Subtask` (src/tasks.rs:33-47). -/
def decodeSubtask : Json → Except String Subtask
  | .obj fs =>
    match decodeSubtaskPartA fs with
    | .error e => .error e
    | .ok a =>
      match decodeSubtaskPartB fs with
      | .error e => .error e
      | .ok b => .ok ⟨a.1, a.2.1, a.2.2.1, a.2.2.2, b.1, b.2.1, b.2.2.1, b.2.2.2⟩
  | _ => .error "expected object"

def decodeSubtasksLoop : List Json → Except String (List Subtask)
  | [] => .ok []
  | x :: rest =>
    match decodeSubtask x with
    | .error e => .error e
    | .ok s =>
      match decodeSubtasksLoop rest with
      | .error e => .error e
      | .ok ss => .ok (s :: ss)

def decodeSubtaskList : Json → Except String (List Subtask)
  | .arr xs => decodeSubtasksLoop xs
  | _ => .error "expected array"

/-- Decodes `Task` fields `id` … `content` (struct order). -/
def decodeTaskPartA (fs : List (String × Json)) :
    Except String (TaskID × ProjectID × String × Bool × DateTimeUtc × String) :=
  match decodeField fs "id" decodeTaskID ⟨""⟩ with
  | .error e => .error e
  | .ok id =>
    match decodeField fs "projectId" decodeProjectID ⟨""⟩ with
    | .error e => .error e
    | .ok pid =>
      match decodeField fs "title" decodeString "" with
      | .error e => .error e
      | .ok title =>
        match decodeField fs "isAllDay" decodeBool false with
        | .error e => .error e
        | .ok ad =>
          match decodeField fs "completedTime" decodeDT epochDT with
          | .error e => .error e
          | .ok ct =>
            match decodeField fs "content" decodeString "" with
            | .error e => .error e
            | .ok content => .ok (id, pid, title, ad, ct, content)

/-- Decodes `Task` fields `desc` … `repeatFlag`. -/
def decodeTaskPartB (fs : List (String × Json)) :
    Except String (String × DateTimeUtc × List Subtask × TaskPriority ×
      List String × String) :=
  match decodeField fs "desc" decodeString "" with
  | .error e => .error e
  | .ok desc =>
    match decodeField fs "dueDate" decodeDT epochDT with
    | .error e => .error e
    | .ok dd =>
      match decodeField fs "items" decodeSubtaskList [] with
      | .error e => .error e
      | .ok items =>
        match decodeField fs "priority" decodePriority .none with
        | .error e => .error e
        | .ok prio =>
          match decodeField fs "reminders" decodeStringList [] with
          | .error e => .error e
          | .ok rem =>
            match decodeField fs "repeatFlag" decodeString "" with
            | .error e => .error e
            | .ok rf => .ok (desc, dd, items, prio, rem, rf)

/-- Decodes `Task` fields `sortOrder` … `tags`. -/
def decodeTaskPartC (fs : List (String × Json)) :
    Except String (Int × DateTimeUtc × TaskStatus × String × List String) :=
  match decodeField fs "sortOrder" decodeInt 0 with
  | .error e => .error e
  | .ok so =>
    match decodeField fs "startDate" decodeDT epochDT with
    | .error e => .error e
    | .ok sd =>
      match decodeField fs "status" decodeTaskStatus .normal with
      | .error e => .error e
      | .ok st =>
        match decodeField fs "timeZone" decodeString "" with
        | .error e => .error e
        | .ok tz =>
          match decodeField fs "tags" decodeStringList [] with
          | .error e => .error e
          | .ok tags => .ok (so, sd, st, tz, tags)

/-- serde deserialization of `Task` (src/tasks.rs:51-80); `http_client` is
`#[serde(skip)]`. -/
def decodeTask : Json → Except String Task
  | .obj fs =>
    match decodeTaskPartA fs with
    | .error e => .error e
    | .ok a =>
      match decodeTaskPartB fs with
      | .error e => .error e
      | .ok b =>
        match decodeTaskPartC fs with
        | .error e => .error e
        | .ok c =>
          .ok ⟨a.1, a.2.1, a.2.2.1, a.2.2.2.1, a.2.2.2.2.1, a.2.2.2.2.2,
               b.1, b.2.1, b.2.2.1, b.2.2.2.1, b.2.2.2.2.1, b.2.2.2.2.2,
               c.1, c.2.1, c.2.2.1, c.2.2.2.1, c.2.2.2.2⟩
  | _ => .error "expected object"

/-- Decodes `Project` fields `id` … `closed` (struct order). -/
def decodeProjectPartA (fs : List (String × Json)) :
    Except String (ProjectID × String × String × Int × Bool) :=
  match decodeField fs "id" decodeProjectID ⟨""⟩ with
  | .error e => .error e
  | .ok id =>
    match decodeField fs "name" decodeString "" with
    | .error e => .error e
    | .ok name =>
      match decodeField fs "color" decodeString "" with
      | .error e => .error e
      | .ok color =>
        match decodeField fs "sortOrder" decodeInt 0 with
        | .error e => .error e
        | .ok so =>
          match decodeField fs "closed" decodeBool false with
          | .error e => .error e
          | .ok closed => .ok (id, name, color, so, closed)

/-- Decodes `Project` fields `groupId` … `kind`. -/
def decodeProjectPartB (fs : List (String × Json)) :
    Except String (GroupID × ProjectViewMode × ProjectUserPermissions ×
      ProjectKind) :=
  match decodeField fs "groupId" decodeGroupID ⟨""⟩ with
  | .error e => .error e
  | .ok gid =>
    match decodeField fs "viewMode" decodeViewMode .list with
    | .error e => .error e
    | .ok vm =>
      match decodeField fs "permission" decodePermissions .read with
      | .error e => .error e
      | .ok perm =>
        match decodeField fs "kind" decodeKind .task with
        | .error e => .error e
        | .ok kind => .ok (gid, vm, perm, kind)

/-- serde deserialization of `Project` (src/projects.rs:31-46);
`http_client` is `#[serde(skip)]`. -/
def decodeProject : Json → Except String Project
  | .obj fs =>
    match decodeProjectPartA fs with
    | .error e => .error e
    | .ok a =>
      match decodeProjectPartB fs with
      | .error e => .error e
      | .ok b => .ok ⟨a.1, a.2.1, a.2.2.1, a.2.2.2.1, a.2.2.2.2,
                      b.1, b.2.1, b.2.2.1, b.2.2.2⟩
  | _ => .error "expected object"

/-! ## Builders (src/builders.rs)

The builders accumulate optional fields; serialization emits, in struct
order, the required field plus every optional field that is set
(`skip_serializing_if = "Option::is_none"`) and every collection that is
non-empty (`skip_serializing_if = "Vec::is_empty"`), under camelCase
names.  `serializedKeys` is the list of field names the serialized JSON
object contains.  Rust setter methods share their field's name, which Lean
does not allow, so the setters here carry a `_set` suffix. -/

structure TaskBuilder where
  title : String
  project_id : Option ProjectID
  is_all_day : Option Bool
  completed_time : Option DateTimeUtc
  content : Option String
  desc : Option String
  due_date : Option DateTimeUtc
  subtasks : List Subtask
  priority : Option TaskPriority
  reminders : List String
  repeat_flag : Option String
  sort_order : Option Int
  start_date : Option DateTimeUtc
  status : Option TaskStatus
  time_zone : Option String
  tags : List String
  deriving DecidableEq, Repr

/-- `TaskBuilder::new` (src/builders.rs:61-67): everything defaulted except
the title. -/
def TaskBuilder.new (title : String) : TaskBuilder :=
  ⟨title, none, none, none, none, none, none, [], none, [], none, none,
   none, none, none, []⟩

def TaskBuilder.title_set (b : TaskBuilder) (v : String) : TaskBuilder :=
  { b with title := v }

def TaskBuilder.project_id_set (b : TaskBuilder) (v : ProjectID) : TaskBuilder :=
  { b with project_id := some v }

def TaskBuilder.is_all_day_set (b : TaskBuilder) (v : Bool) : TaskBuilder :=
  { b with is_all_day := some v }

def TaskBuilder.completed_time_set (b : TaskBuilder) (v : DateTimeUtc) :
    TaskBuilder :=
  { b with completed_time := some v }

def TaskBuilder.content_set (b : TaskBuilder) (v : String) : TaskBuilder :=
  { b with content := some v }

def TaskBuilder.desc_set (b : TaskBuilder) (v : String) : TaskBuilder :=
  { b with desc := some v }

def TaskBuilder.due_date_set (b : TaskBuilder) (v : DateTimeUtc) : TaskBuilder :=
  { b with due_date := some v }

def TaskBuilder.subtasks_set (b : TaskBuilder) (v : List Subtask) : TaskBuilder :=
  { b with subtasks := v }

def TaskBuilder.priority_set (b : TaskBuilder) (v : TaskPriority) : TaskBuilder :=
  { b with priority := some v }

def TaskBuilder.reminders_set (b : TaskBuilder) (v : List String) : TaskBuilder :=
  { b with reminders := v }

def TaskBuilder.repeat_flag_set (b : TaskBuilder) (v : String) : TaskBuilder :=
  { b with repeat_flag := some v }

def TaskBuilder.sort_order_set (b : TaskBuilder) (v : Int) : TaskBuilder :=
  { b with sort_order := some v }

def TaskBuilder.start_date_set (b : TaskBuilder) (v : DateTimeUtc) : TaskBuilder :=
  { b with start_date := some v }

def TaskBuilder.status_set (b : TaskBuilder) (v : TaskStatus) : TaskBuilder :=
  { b with status := some v }

def TaskBuilder.time_zone_set (b : TaskBuilder) (v : String) : TaskBuilder :=
  { b with time_zone := some v }

def TaskBuilder.tags_set (b : TaskBuilder) (v : List String) : TaskBuilder :=
  { b with tags := v }

/-- Field emitted iff the `Option` is set. -/
def optKey {α : Type} (name : String) : Option α → List String
  | some _ => [name]
  | none => []

/-- Field emitted iff the collection is non-empty. -/
def vecKey {α : Type} (name : String) (v : List α) : List String :=
  if v.isEmpty then [] else [name]

/-- The field names of the serialized `TaskBuilder`, in struct order
(`http_client` is `#[serde(skip)]`; `items` is the wire name of
`subtasks`). -/
def TaskBuilder.serializedKeys (b : TaskBuilder) : List String :=
  ["title"] ++ optKey "projectId" b.project_id ++
  optKey "isAllDay" b.is_all_day ++
  optKey "completedTime" b.completed_time ++ optKey "content" b.content ++
  optKey "desc" b.desc ++ optKey "dueDate" b.due_date ++
  vecKey "items" b.subtasks ++ optKey "priority" b.priority ++
  vecKey "reminders" b.reminders ++ optKey "repeatFlag" b.repeat_flag ++
  optKey "sortOrder" b.sort_order ++ optKey "startDate" b.start_date ++
  optKey "status" b.status ++ optKey "timeZone" b.time_zone ++
  vecKey "tags" b.tags

structure ProjectBuilder where
  name : String
  color : Option String
  sort_order : Option Int
  view_mode : Option ProjectViewMode
  kind : Option ProjectKind
  deriving DecidableEq, Repr

/-- `ProjectBuilder::new` (src/builders.rs:167-173). -/
def ProjectBuilder.new (name : String) : ProjectBuilder :=
  ⟨name, none, none, none, none⟩

def ProjectBuilder.name_set (b : ProjectBuilder) (v : String) : ProjectBuilder :=
  { b with name := v }

def ProjectBuilder.color_set (b : ProjectBuilder) (v : String) : ProjectBuilder :=
  { b with color := some v }

def ProjectBuilder.view_mode_set (b : ProjectBuilder) (v : ProjectViewMode) :
    ProjectBuilder :=
  { b with view_mode := some v }

def ProjectBuilder.kind_set (b : ProjectBuilder) (v : ProjectKind) :
    ProjectBuilder :=
  { b with kind := some v }

/-- The field names of the serialized `ProjectBuilder`, in struct order.
`sort_order` has no setter in the source, but the field exists and would
serialize when set. -/
def ProjectBuilder.serializedKeys (b : ProjectBuilder) : List String :=
  ["name"] ++ optKey "color" b.color ++ optKey "sortOrder" b.sort_order ++
  optKey "viewMode" b.view_mode ++ optKey "kind" b.kind

/-! ## Authorization flow (src/lib.rs:146-240) -/

inductive AuthorizationError
  | reqwestClientError (e : ReqwestError)
  | invalidCSRFState (expected recieved : String)
  deriving DecidableEq, Repr

structure AccessToken where
  value : String
  token_type : String
  expires_in : Nat
  scope : String
  deriving DecidableEq, Repr

/-- The form body of the token-exchange POST, as assembled by
`finish_auth`. -/
structure TokenRequestForm where
  client_id : String
  client_secret : String
  code : String
  grant_type : String
  scope : String
  redirect_uri : String
  deriving DecidableEq, Repr

/-- State returned by `Authorization::begin_auth`: the authorize URL, the
random CSRF token it generated, and the OAuth client data (client id and
redirect URI) used later by `finish_auth`. -/
structure AwaitingAuthCode where
  authorization_url : String
  csrf_state : String
  client_id : String
  redirect_uri : String
  deriving DecidableEq, Repr

/-- `AwaitingAuthCode::finish_auth` (src/lib.rs:203-229): builds the token
request form, compares `state` with the CSRF token, and only on equality
POSTs the form (`token_request_result?.json::<AccessToken>().await?`, with
no status check).  The second component is the trace of POSTs issued. -/
def AwaitingAuthCode.finish_auth (a : AwaitingAuthCode)
    (client_secret auth_code state : String)
    (net : TokenRequestForm → Except ReqwestError (WireResponse AccessToken)) :
    Except AuthorizationError AccessToken × List TokenRequestForm :=
  let form : TokenRequestForm :=
    ⟨a.client_id, client_secret, auth_code, "authorization_code",
     "tasks:write tasks:read", a.redirect_uri⟩
  if state ≠ a.csrf_state then
    (.error (.invalidCSRFState a.csrf_state state), [])
  else
    match net form with
    | .error e => (.error (.reqwestClientError e), [form])
    | .ok resp =>
      match resp.payload with
      | .error e => (.error (.reqwestClientError e), [form])
      | .ok tok => (.ok tok, [form])

theorem getAllTasksLoop_ok (net : Net) (f : Project → ProjectData) :
    ∀ (ps : List Project) (acc : List Task),
    (∀ p ∈ ps, net.projectData p.id = .ok (f p)) →
    getAllTasksLoop net ps acc =
      (.ok (acc ++ (ps.map fun p => (f p).tasks).flatten),
       ps.map fun p => NetCall.projectData p.id) := by
  intro ps
  induction ps with
  | nil => intro acc h; simp [getAllTasksLoop]
  | cons p rest ih =>
    intro acc h
    have hp := h p (by simp)
    have hrest := ih (acc ++ (f p).tasks) (fun q hq => h q (by simp [hq]))
    simp [getAllTasksLoop, Project.get_tasks, Except.map, hp, hrest]

theorem getAllTasksLoop_err (net : Net) (f : Project → ProjectData)
    (e : TickTickError) (p : Project) (l₂ : List Project) :
    ∀ (l₁ : List Project) (acc : List Task),
    (∀ q ∈ l₁, net.projectData q.id = .ok (f q)) →
    net.projectData p.id = .error e →
    getAllTasksLoop net (l₁ ++ p :: l₂) acc =
      (.error e, l₁.map (fun q => NetCall.projectData q.id) ++
        [NetCall.projectData p.id]) := by
  intro l₁
  induction l₁ with
  | nil =>
    intro acc _ hp
    simp [getAllTasksLoop, Project.get_tasks, Except.map, hp]
  | cons q rest ih =>
    intro acc h hp
    have hq := h q (by simp)
    have hrest := ih (acc ++ (f q).tasks) (fun q' hq' => h q' (by simp [hq'])) hp
    simp [getAllTasksLoop, Project.get_tasks, Except.map, hq, hrest]

/-- C2: `get_all_tasks_in_projects` fetches the project list once, then
each project's data sequentially in project-list order (visible in the
call trace), returning the concatenation of the per-project task lists in
that order; an error from the project-list fetch or from any single
project's data fetch is returned as the overall result, with no partial
result and no further calls. -/
theorem claim_C2_fanout :
    (∀ (net : Net) (e : TickTickError), net.allProjects = .error e →
      get_all_tasks_in_projects net = (.error e, [NetCall.allProjects])) ∧
    (∀ (net : Net) (ps : List Project) (f : Project → ProjectData),
      net.allProjects = .ok ps →
      (∀ p ∈ ps, net.projectData p.id = .ok (f p)) →
      get_all_tasks_in_projects net =
        (.ok ((ps.map fun p => (f p).tasks).flatten),
         NetCall.allProjects :: ps.map fun p => NetCall.projectData p.id)) ∧
    (∀ (net : Net) (l₁ l₂ : List Project) (p : Project)
      (f : Project → ProjectData) (e : TickTickError),
      net.allProjects = .ok (l₁ ++ p :: l₂) →
      (∀ q ∈ l₁, net.projectData q.id = .ok (f q)) →
      net.projectData p.id = .error e →
      get_all_tasks_in_projects net =
        (.error e, NetCall.allProjects ::
          (l₁.map (fun q => NetCall.projectData q.id) ++
            [NetCall.projectData p.id]))) := by
  refine ⟨?_, ?_, ?_⟩
  · intro net e h
    simp [get_all_tasks_in_projects, h]
  · intro net ps f hps hok
    have hl := getAllTasksLoop_ok net f ps [] hok
    simp [get_all_tasks_in_projects, hps, hl]
  · intro net l₁ l₂ p f e hps hok hp
    have hl := getAllTasksLoop_err net f e p l₂ l₁ [] hok hp
    simp [get_all_tasks_in_projects, hps, hl]

/-- C7 (documenting the code as it stands): every request URL other than
the completion one is the fixed base `https://ticktick.com` followed by
its documented path; `Task::complete` however builds
`/open/v1/project/{p}/task/{t}/complete` with no base at all, so its URL
is NOT the base-prefixed completion URL the spec describes. -/
theorem claim_C7_request_urls :
    (∀ pid tid : String, getTaskUrl pid tid =
      baseUrl ++ ("/open/v1/project/" ++ pid ++ "/task/" ++ tid)) ∧
    (∀ pid : String, getProjectUrl pid =
      baseUrl ++ ("/open/v1/project/" ++ pid)) ∧
    (∀ pid : String, getProjectDataUrl pid =
      baseUrl ++ ("/open/v1/project/" ++ pid ++ "/data")) ∧
    allProjectsUrl = baseUrl ++ "/open/v1/project/" ∧
    (∀ pid tid : String, deleteTaskUrl pid tid =
      baseUrl ++ ("/open/v1/project/" ++ pid ++ "/task/" ++ tid)) ∧
    (∀ tid : String, updateTaskUrl tid = baseUrl ++ ("/open/v1/task/" ++ tid)) ∧
    createTaskUrl = baseUrl ++ "/open/v1/task" ∧
    createProjectUrl = baseUrl ++ "/open/v1/project" ∧
    (∀ pid : String, updateProjectUrl pid =
      baseUrl ++ ("/open/v1/project/" ++ pid)) ∧
    oauthAuthorizeUrl = baseUrl ++ "/oauth/authorize" ∧
    oauthTokenUrl = baseUrl ++ "/oauth/token" ∧
    completeTaskUrl "p1" "t1" = "/open/v1/project/p1/task/t1/complete" ∧
    completeTaskUrl "p1" "t1" ≠
      baseUrl ++ "/open/v1/project/p1/task/t1/complete" := by
  refine ⟨?_, ?_, ?_, by decide, ?_, ?_, by decide, by decide, ?_, by decide,
    by decide, by decide, by decide⟩
  · intro pid tid
    simp [getTaskUrl, baseUrl, ← String.append_assoc]
  · intro pid
    simp [getProjectUrl, baseUrl, ← String.append_assoc]
  · intro pid
    simp [getProjectDataUrl, baseUrl, ← String.append_assoc]
  · intro pid tid
    simp [deleteTaskUrl, baseUrl, ← String.append_assoc]
  · intro tid
    simp [updateTaskUrl, baseUrl, ← String.append_assoc]
  · intro pid
    simp [updateProjectUrl, baseUrl, ← String.append_assoc]

/-- C8: `Task::complete` sets the local status to `Completed` before the
network call: the task left behind is always the mutated one, the POST
body already carries `Completed`, and even when the oracle fails the local
status remains `Completed` — it is never rolled back. -/
theorem claim_C8_complete_sets_status_first :
    ∀ (t : Task) (net : String → Task → Except ReqwestError (WireResponse Unit)),
      (Task.complete t net).1 = { t with status := TaskStatus.completed } ∧
      (Task.complete t net).1.status = TaskStatus.completed ∧
      (Task.complete t net).2.1 =
        [(completeTaskUrl t.project_id.val t.id.val,
          { t with status := TaskStatus.completed })] ∧
      (∀ e : ReqwestError,
        (Task.complete t (fun _ _ => .error e)).2.2 = .error e ∧
        (Task.complete t (fun _ _ => .error e)).1.status =
          TaskStatus.completed) :=
  fun _ _ => ⟨rfl, rfl, rfl, fun _ => ⟨rfl, rfl⟩⟩

/-- C9: `Task::publish_changes` and `Project::publish_changes` never
inspect the response status: any delivered response whose body can be read
yields `Ok(())` whatever its status code, and an error is returned exactly
when the transport fails (sending, or reading the body). -/
theorem claim_C9_publish_ignores_status :
    (∀ (t : Task) (net : String → Except ReqwestError (WireResponse String))
      (s : Nat) (b : String),
      net (updateTaskUrl t.id.val) = .ok ⟨s, .ok b⟩ →
      t.publish_changes net = .ok ()) ∧
    (∀ (p : Project) (net : String → Except ReqwestError (WireResponse String))
      (s : Nat) (b : String),
      net (updateProjectUrl p.id.val) = .ok ⟨s, .ok b⟩ →
      p.publish_changes net = .ok ()) ∧
    (∀ (t : Task) (net : String → Except ReqwestError (WireResponse String))
      (e : ReqwestError),
      t.publish_changes net = .error e ↔
        (net (updateTaskUrl t.id.val) = .error e ∨
          ∃ s, net (updateTaskUrl t.id.val) = .ok ⟨s, .error e⟩)) ∧
    (∀ (p : Project) (net : String → Except ReqwestError (WireResponse String))
      (e : ReqwestError),
      p.publish_changes net = .error e ↔
        (net (updateProjectUrl p.id.val) = .error e ∨
          ∃ s, net (updateProjectUrl p.id.val) = .ok ⟨s, .error e⟩)) := by
  refine ⟨?_, ?_, ?_, ?_⟩
  · intro t net s b h
    simp [Task.publish_changes, publishPipeline, h]
  · intro p net s b h
    simp [Project.publish_changes, publishPipeline, h]
  · intro t net e
    cases h : net (updateTaskUrl t.id.val) with
    | error e' => simp [Task.publish_changes, publishPipeline, h]
    | ok resp =>
      obtain ⟨s, payload⟩ := resp
      cases payload with
      | error e' =>
        simp only [Task.publish_changes, publishPipeline, h]
        constructor
        · intro he
          cases he
          exact Or.inr ⟨s, rfl⟩
        · rintro (he | ⟨s', he⟩)
          · cases he
          · cases he
            rfl
      | ok b =>
        simp only [Task.publish_changes, publishPipeline, h]
        constructor
        · intro he; cases he
        · rintro (he | ⟨s', he⟩)
          · cases he
          · cases he
  · intro p net e
    cases h : net (updateProjectUrl p.id.val) with
    | error e' => simp [Project.publish_changes, publishPipeline, h]
    | ok resp =>
      obtain ⟨s, payload⟩ := resp
      cases payload with
      | error e' =>
        simp only [Project.publish_changes, publishPipeline, h]
        constructor
        · intro he
          cases he
          exact Or.inr ⟨s, rfl⟩
        · rintro (he | ⟨s', he⟩)
          · cases he
          · cases he
            rfl
      | ok b =>
        simp only [Project.publish_changes, publishPipeline, h]
        constructor
        · intro he; cases he
        · rintro (he | ⟨s', he⟩)
          · cases he
          · cases he

theorem claim_C9_publish_ignores_status_witness :
    Task.publish_changes taskDefault (fun _ => .ok ⟨500, .ok ""⟩) = .ok () :=
  claim_C9_publish_ignores_status.1 taskDefault (fun _ => .ok ⟨500, .ok ""⟩)
    500 "" rfl

/-- C6 counterexample: not every setter call adds a field.  The required
field's setter (`title` / `name`) overwrites a field that is already
serialized, and a collection setter given an empty collection leaves it
omitted: after each of these setter calls the serialized object still
contains exactly one field, not two. -/
theorem claim_C6_builder_omission_cex :
    TaskBuilder.serializedKeys ((TaskBuilder.new "t").title_set "u") =
      ["title"] ∧
    TaskBuilder.serializedKeys ((TaskBuilder.new "t").tags_set []) =
      ["title"] ∧
    ProjectBuilder.serializedKeys ((ProjectBuilder.new "p").name_set "q") =
      ["name"] :=
  ⟨rfl, rfl, rfl⟩

set_option maxHeartbeats 1600000 in
/-- C6 (amended): a fresh builder serializes to exactly its required field;
a setter that supplies a value for a previously-unset optional field — a
`Some` value, or a non-empty collection — adds exactly that one field to
the serialized object; the required field's setter replaces the existing
field and leaves the serialized field set unchanged. -/
theorem claim_C6_builder_omission :
    (∀ s : String, TaskBuilder.serializedKeys (TaskBuilder.new s) =
      ["title"]) ∧
    (∀ s : String, ProjectBuilder.serializedKeys (ProjectBuilder.new s) =
      ["name"]) ∧
    (∀ (b : TaskBuilder) (v : String),
      (b.title_set v).serializedKeys = b.serializedKeys) ∧
    (∀ (b : ProjectBuilder) (v : String),
      (b.name_set v).serializedKeys = b.serializedKeys) ∧
    (∀ (b : TaskBuilder) (v : ProjectID) (g : String), b.project_id = none →
      ((b.project_id_set v).serializedKeys).count g =
        (b.serializedKeys).count g + (if g = "projectId" then 1 else 0)) ∧
    (∀ (b : TaskBuilder) (v : Bool) (g : String), b.is_all_day = none →
      ((b.is_all_day_set v).serializedKeys).count g =
        (b.serializedKeys).count g + (if g = "isAllDay" then 1 else 0)) ∧
    (∀ (b : TaskBuilder) (v : DateTimeUtc) (g : String),
      b.completed_time = none →
      ((b.completed_time_set v).serializedKeys).count g =
        (b.serializedKeys).count g + (if g = "completedTime" then 1 else 0)) ∧
    (∀ (b : TaskBuilder) (v : String) (g : String), b.content = none →
      ((b.content_set v).serializedKeys).count g =
        (b.serializedKeys).count g + (if g = "content" then 1 else 0)) ∧
    (∀ (b : TaskBuilder) (v : String) (g : String), b.desc = none →
      ((b.desc_set v).serializedKeys).count g =
        (b.serializedKeys).count g + (if g = "desc" then 1 else 0)) ∧
    (∀ (b : TaskBuilder) (v : DateTimeUtc) (g : String), b.due_date = none →
      ((b.due_date_set v).serializedKeys).count g =
        (b.serializedKeys).count g + (if g = "dueDate" then 1 else 0)) ∧
    (∀ (b : TaskBuilder) (v : List Subtask) (g : String), b.subtasks = [] →
      v ≠ [] →
      ((b.subtasks_set v).serializedKeys).count g =
        (b.serializedKeys).count g + (if g = "items" then 1 else 0)) ∧
    (∀ (b : TaskBuilder) (v : TaskPriority) (g : String), b.priority = none →
      ((b.priority_set v).serializedKeys).count g =
        (b.serializedKeys).count g + (if g = "priority" then 1 else 0)) ∧
    (∀ (b : TaskBuilder) (v : List String) (g : String), b.reminders = [] →
      v ≠ [] →
      ((b.reminders_set v).serializedKeys).count g =
        (b.serializedKeys).count g + (if g = "reminders" then 1 else 0)) ∧
    (∀ (b : TaskBuilder) (v : String) (g : String), b.repeat_flag = none →
      ((b.repeat_flag_set v).serializedKeys).count g =
        (b.serializedKeys).count g + (if g = "repeatFlag" then 1 else 0)) ∧
    (∀ (b : TaskBuilder) (v : Int) (g : String), b.sort_order = none →
      ((b.sort_order_set v).serializedKeys).count g =
        (b.serializedKeys).count g + (if g = "sortOrder" then 1 else 0)) ∧
    (∀ (b : TaskBuilder) (v : DateTimeUtc) (g : String), b.start_date = none →
      ((b.start_date_set v).serializedKeys).count g =
        (b.serializedKeys).count g + (if g = "startDate" then 1 else 0)) ∧
    (∀ (b : TaskBuilder) (v : TaskStatus) (g : String), b.status = none →
      ((b.status_set v).serializedKeys).count g =
        (b.serializedKeys).count g + (if g = "status" then 1 else 0)) ∧
    (∀ (b : TaskBuilder) (v : String) (g : String), b.time_zone = none →
      ((b.time_zone_set v).serializedKeys).count g =
        (b.serializedKeys).count g + (if g = "timeZone" then 1 else 0)) ∧
    (∀ (b : TaskBuilder) (v : List String) (g : String), b.tags = [] →
      v ≠ [] →
      ((b.tags_set v).serializedKeys).count g =
        (b.serializedKeys).count g + (if g = "tags" then 1 else 0)) ∧
    (∀ (b : ProjectBuilder) (v : String) (g : String), b.color = none →
      ((b.color_set v).serializedKeys).count g =
        (b.serializedKeys).count g + (if g = "color" then 1 else 0)) ∧
    (∀ (b : ProjectBuilder) (v : ProjectViewMode) (g : String),
      b.view_mode = none →
      ((b.view_mode_set v).serializedKeys).count g =
        (b.serializedKeys).count g + (if g = "viewMode" then 1 else 0)) ∧
    (∀ (b : ProjectBuilder) (v : ProjectKind) (g : String), b.kind = none →
      ((b.kind_set v).serializedKeys).count g =
        (b.serializedKeys).count g + (if g = "kind" then 1 else 0)) := by
  refine ⟨fun s => rfl, fun s => rfl, fun b v => rfl, fun b v => rfl,
    ?_, ?_, ?_, ?_, ?_, ?_, ?_, ?_, ?_, ?_, ?_, ?_, ?_, ?_, ?_, ?_, ?_, ?_⟩
  · intro b v g h
    simp only [TaskBuilder.serializedKeys, TaskBuilder.project_id_set, h,
      optKey, List.count_append]
    by_cases hg : g = "projectId" <;> simp [hg, List.count_cons] <;> omega
  · intro b v g h
    simp only [TaskBuilder.serializedKeys, TaskBuilder.is_all_day_set, h,
      optKey, List.count_append]
    by_cases hg : g = "isAllDay" <;> simp [hg, List.count_cons] <;> omega
  · intro b v g h
    simp only [TaskBuilder.serializedKeys, TaskBuilder.completed_time_set, h,
      optKey, List.count_append]
    by_cases hg : g = "completedTime" <;> simp [hg, List.count_cons] <;> omega
  · intro b v g h
    simp only [TaskBuilder.serializedKeys, TaskBuilder.content_set, h,
      optKey, List.count_append]
    by_cases hg : g = "content" <;> simp [hg, List.count_cons] <;> omega
  · intro b v g h
    simp only [TaskBuilder.serializedKeys, TaskBuilder.desc_set, h,
      optKey, List.count_append]
    by_cases hg : g = "desc" <;> simp [hg, List.count_cons] <;> omega
  · intro b v g h
    simp only [TaskBuilder.serializedKeys, TaskBuilder.due_date_set, h,
      optKey, List.count_append]
    by_cases hg : g = "dueDate" <;> simp [hg, List.count_cons] <;> omega
  · intro b v g h hv
    simp only [TaskBuilder.serializedKeys, TaskBuilder.subtasks_set, h,
      vecKey, List.isEmpty_nil, List.isEmpty_eq_true, hv, List.count_append]
    by_cases hg : g = "items" <;> simp [hg, List.count_cons] <;> omega
  · intro b v g h
    simp only [TaskBuilder.serializedKeys, TaskBuilder.priority_set, h,
      optKey, List.count_append]
    by_cases hg : g = "priority" <;> simp [hg, List.count_cons] <;> omega
  · intro b v g h hv
    simp only [TaskBuilder.serializedKeys, TaskBuilder.reminders_set, h,
      vecKey, List.isEmpty_nil, List.isEmpty_eq_true, hv, List.count_append]
    by_cases hg : g = "reminders" <;> simp [hg, List.count_cons] <;> omega
  · intro b v g h
    simp only [TaskBuilder.serializedKeys, TaskBuilder.repeat_flag_set, h,
      optKey, List.count_append]
    by_cases hg : g = "repeatFlag" <;> simp [hg, List.count_cons] <;> omega
  · intro b v g h
    simp only [TaskBuilder.serializedKeys, TaskBuilder.sort_order_set, h,
      optKey, List.count_append]
    by_cases hg : g = "sortOrder" <;> simp [hg, List.count_cons] <;> omega
  · intro b v g h
    simp only [TaskBuilder.serializedKeys, TaskBuilder.start_date_set, h,
      optKey, List.count_append]
    by_cases hg : g = "startDate" <;> simp [hg, List.count_cons] <;> omega
  · intro b v g h
    simp only [TaskBuilder.serializedKeys, TaskBuilder.status_set, h,
      optKey, List.count_append]
    by_cases hg : g = "status" <;> simp [hg, List.count_cons] <;> omega
  · intro b v g h
    simp only [TaskBuilder.serializedKeys, TaskBuilder.time_zone_set, h,
      optKey, List.count_append]
    by_cases hg : g = "timeZone" <;> simp [hg, List.count_cons] <;> omega
  · intro b v g h hv
    simp only [TaskBuilder.serializedKeys, TaskBuilder.tags_set, h,
      vecKey, List.isEmpty_nil, List.isEmpty_eq_true, hv, List.count_append]
    by_cases hg : g = "tags" <;> simp [hg, List.count_cons] <;> omega
  · intro b v g h
    simp only [ProjectBuilder.serializedKeys, ProjectBuilder.color_set, h,
      optKey, List.count_append]
    by_cases hg : g = "color" <;> simp [hg, List.count_cons] <;> omega
  · intro b v g h
    simp only [ProjectBuilder.serializedKeys, ProjectBuilder.view_mode_set, h,
      optKey, List.count_append]
    by_cases hg : g = "viewMode" <;> simp [hg, List.count_cons] <;> omega
  · intro b v g h
    simp only [ProjectBuilder.serializedKeys, ProjectBuilder.kind_set, h,
      optKey, List.count_append]
    by_cases hg : g = "kind" <;> simp [hg, List.count_cons] <;> omega

theorem claim_C6_builder_omission_witness :
    ((TaskBuilder.new "t").content_set "hello").serializedKeys.count
        "content" =
      (TaskBuilder.new "t").serializedKeys.count "content" + 1 := by
  have hc := claim_C6_builder_omission.2.2.2.2.2.2.2.1
    (TaskBuilder.new "t") "hello" "content" rfl
  simpa using hc

/-- C3 counterexample: the claim fails on the code in two ways.
`get_all_projects` never calls `error_for_status`, so a 500 response whose
body parses as a project list is returned as a SUCCESS, not as
`ClientError`; and a body that fails deserialization surfaces as
`ClientError` (wrapping the HTTP client's own decode error, since
`Response::json` returns `reqwest::Error`), which is a different variant
from `ResponseParseError`. -/
theorem claim_C3_error_kinds_cex :
    getAllProjectsOp (.ok ⟨500, .ok []⟩) = .ok [] ∧
    getAllProjectsOp (.ok ⟨500, .ok []⟩) ≠
      .error (.clientError (.status 500)) ∧
    getTaskOp (.ok ⟨200, .error .decode⟩) =
      .error (.clientError .decode) ∧
    getTaskOp (.ok ⟨200, .error .decode⟩) ≠
      .error (.responseParseError "malformed body") :=
  ⟨rfl, fun h => Except.noConfusion h, rfl,
   fun h => TickTickError.noConfusion (Except.error.inj h)⟩

/-- C3 (amended): `get_task`, `get_project` and `get_project_data` surface
a transport failure and a 4xx/5xx status as `ClientError`;
`get_all_projects` performs no status check at all, succeeding on any
status whose body parses; in every one of the four operations a body that
fails schema deserialization surfaces as `ClientError` too (the decode
error belongs to the HTTP client), and no result of these operations is
ever `ResponseParseError`. -/
theorem claim_C3_error_kinds :
    (∀ e : ReqwestError,
      getTaskOp (.error e) = .error (.clientError e) ∧
      getProjectOp (.error e) = .error (.clientError e) ∧
      getProjectDataOp (.error e) = .error (.clientError e) ∧
      getAllProjectsOp (.error e) = .error (.clientError e)) ∧
    (∀ (s : Nat), 400 ≤ s →
      (∀ p : Except ReqwestError Task,
        getTaskOp (.ok ⟨s, p⟩) = .error (.clientError (.status s))) ∧
      (∀ p : Except ReqwestError Project,
        getProjectOp (.ok ⟨s, p⟩) = .error (.clientError (.status s))) ∧
      (∀ p : Except ReqwestError ProjectData,
        getProjectDataOp (.ok ⟨s, p⟩) = .error (.clientError (.status s)))) ∧
    (∀ (s : Nat) (e : ReqwestError), s < 400 →
      getTaskOp (.ok ⟨s, .error e⟩) = .error (.clientError e) ∧
      getProjectOp (.ok ⟨s, .error e⟩) = .error (.clientError e) ∧
      getProjectDataOp (.ok ⟨s, .error e⟩) = .error (.clientError e)) ∧
    (∀ (s : Nat) (e : ReqwestError),
      getAllProjectsOp (.ok ⟨s, .error e⟩) = .error (.clientError e)) ∧
    (∀ (s : Nat) (ps : List Project),
      getAllProjectsOp (.ok ⟨s, .ok ps⟩) = .ok ps) ∧
    (∀ (net : Except ReqwestError (WireResponse Task)) (m : String),
      getTaskOp net ≠ .error (.responseParseError m)) ∧
    (∀ (net : Except ReqwestError (WireResponse (List Project))) (m : String),
      getAllProjectsOp net ≠ .error (.responseParseError m)) := by
  refine ⟨fun e => ⟨rfl, rfl, rfl, rfl⟩, ?_, ?_, fun s e => rfl,
    fun s ps => rfl, ?_, ?_⟩
  · intro s hs
    refine ⟨fun p => ?_, fun p => ?_, fun p => ?_⟩ <;>
      simp [getTaskOp, getProjectOp, getProjectDataOp, fetchJson,
        errorForStatus, hs]
  · intro s e hs
    have h400 : ¬ 400 ≤ s := by omega
    refine ⟨?_, ?_, ?_⟩ <;>
      simp [getTaskOp, getProjectOp, getProjectDataOp, fetchJson,
        errorForStatus, h400]
  · intro net m
    rcases net with e | ⟨s, p⟩
    · simp [getTaskOp, fetchJson]
    · by_cases hs : 400 ≤ s
      · simp [getTaskOp, fetchJson, errorForStatus, hs]
      · rcases p with e | v <;>
          simp [getTaskOp, fetchJson, errorForStatus, hs]
  · intro net m
    rcases net with e | ⟨s, p⟩
    · simp [getAllProjectsOp]
    · rcases p with e | v <;> simp [getAllProjectsOp]

theorem claim_C3_error_kinds_witness :
    getTaskOp (.ok ⟨404, .ok taskDefault⟩) =
      .error (.clientError (.status 404)) :=
  ((claim_C3_error_kinds.2.1 404 (by omega)).1 (.ok taskDefault))

/-- Sample data: the spec's example scenario of two projects, the first
with three tasks and the second with none. -/
def sampleTask (i : String) : Task := { taskDefault with id := ⟨i⟩ }

def sampleProject (i : String) : Project := { projectDefault with id := ⟨i⟩ }

def sampleNet : Net :=
  ⟨.ok [sampleProject "p1", sampleProject "p2"],
   fun pid =>
     if pid = ⟨"p1"⟩ then
       .ok ⟨[sampleTask "t1", sampleTask "t2", sampleTask "t3"], []⟩
     else .ok ⟨[], []⟩⟩

theorem claim_C2_fanout_witness :
    get_all_tasks_in_projects sampleNet =
      (.ok [sampleTask "t1", sampleTask "t2", sampleTask "t3"],
       [NetCall.allProjects, NetCall.projectData ⟨"p1"⟩,
        NetCall.projectData ⟨"p2"⟩]) := by
  refine Eq.trans (claim_C2_fanout.2.1 sampleNet
    [sampleProject "p1", sampleProject "p2"]
    (fun p => if p.id = ⟨"p1"⟩ then
        ⟨[sampleTask "t1", sampleTask "t2", sampleTask "t3"], []⟩
      else ⟨[], []⟩) rfl ?_) ?_
  · intro p hp
    simp only [List.mem_cons, List.not_mem_nil, or_false] at hp
    rcases hp with rfl | rfl <;> rfl
  · rfl

/-- C1: `finish_auth` with a state different from the CSRF token fails with
`InvalidCSRFState` carrying both the expected token and the received state,
and issues no network call (empty trace); with the matching state it issues
exactly the token-exchange POST, whose form carries the client id, secret,
code, `authorization_code` grant, the fixed scope string and the redirect
URI, and returns the deserialized `AccessToken` on success. -/
theorem claim_C1_finish_auth_csrf :
    ∀ (a : AwaitingAuthCode) (cs code st : String)
      (net : TokenRequestForm → Except ReqwestError (WireResponse AccessToken)),
      (st ≠ a.csrf_state →
        a.finish_auth cs code st net =
          (.error (.invalidCSRFState a.csrf_state st), [])) ∧
      (st = a.csrf_state →
        (a.finish_auth cs code st net).2 =
          [⟨a.client_id, cs, code, "authorization_code",
            "tasks:write tasks:read", a.redirect_uri⟩]) ∧
      (∀ (s : Nat) (tok : AccessToken), st = a.csrf_state →
        net ⟨a.client_id, cs, code, "authorization_code",
          "tasks:write tasks:read", a.redirect_uri⟩ = .ok ⟨s, .ok tok⟩ →
        a.finish_auth cs code st net =
          (.ok tok, [⟨a.client_id, cs, code, "authorization_code",
            "tasks:write tasks:read", a.redirect_uri⟩])) := by
  intro a cs code st net
  refine ⟨?_, ?_, ?_⟩
  · intro h
    simp [AwaitingAuthCode.finish_auth, h]
  · intro h
    subst h
    simp only [AwaitingAuthCode.finish_auth, ne_eq, not_true_eq_false,
      if_neg, if_false, reduceIte]
    cases hn : net ⟨a.client_id, cs, code, "authorization_code",
        "tasks:write tasks:read", a.redirect_uri⟩ with
    | error e => simp
    | ok resp =>
      cases hp : resp.payload with
      | error e => simp [hp]
      | ok tok => simp [hp]
  · intro s tok h hn
    subst h
    simp [AwaitingAuthCode.finish_auth, hn]

theorem claim_C1_finish_auth_csrf_witness :
    (AwaitingAuthCode.finish_auth ⟨"u", "tok", "cid", "ru"⟩ "sec" "code" "bad"
      (fun _ => .ok ⟨200, .ok ⟨"v", "bearer", 100, "s"⟩⟩) =
      (.error (.invalidCSRFState "tok" "bad"), [])) ∧
    (AwaitingAuthCode.finish_auth ⟨"u", "tok", "cid", "ru"⟩ "sec" "code" "tok"
      (fun _ => .ok ⟨200, .ok ⟨"v", "bearer", 100, "s"⟩⟩) =
      (.ok ⟨"v", "bearer", 100, "s"⟩,
       [⟨"cid", "sec", "code", "authorization_code",
         "tasks:write tasks:read", "ru"⟩])) :=
  ⟨(claim_C1_finish_auth_csrf ⟨"u", "tok", "cid", "ru"⟩ "sec" "code" "bad"
      (fun _ => .ok ⟨200, .ok ⟨"v", "bearer", 100, "s"⟩⟩)).1 (by decide),
   (claim_C1_finish_auth_csrf ⟨"u", "tok", "cid", "ru"⟩ "sec" "code" "tok"
      (fun _ => .ok ⟨200, .ok ⟨"v", "bearer", 100, "s"⟩⟩)).2.2 200
      ⟨"v", "bearer", 100, "s"⟩ rfl rfl⟩


/-- "Every occurrence of `name` in the object decodes successfully" — the
agreement of a present field with its schema. -/
def fieldOk {α : Type} (fs : List (String × Json)) (name : String)
    (dec : Json → Except String α) : Prop :=
  ∀ v, getField fs name = some v → ∃ a, dec v = .ok a

theorem decodeField_ok_iff {α : Type} (fs : List (String × Json)) (n : String)
    (dec : Json → Except String α) (d : α) :
    (∃ a, decodeField fs n dec d = .ok a) ↔ fieldOk fs n dec := by
  unfold decodeField fieldOk
  cases h : getField fs n with
  | none => simp
  | some v => simp [h]

theorem fieldOk_elim {α : Type} {fs : List (String × Json)} {n : String}
    {dec : Json → Except String α} {d a : α}
    (h : decodeField fs n dec d = .ok a) : fieldOk fs n dec :=
  (decodeField_ok_iff fs n dec d).mp ⟨a, h⟩

theorem fieldOk_intro {α : Type} (fs : List (String × Json)) (n : String)
    (dec : Json → Except String α) (d : α) (h : fieldOk fs n dec) :
    ∃ a, decodeField fs n dec d = .ok a :=
  (decodeField_ok_iff fs n dec d).mpr h


theorem decodeTaskPartA_ok_iff (fs : List (String × Json)) :
    (∃ x, decodeTaskPartA fs = .ok x) ↔
      (fieldOk fs "id" decodeTaskID ∧
      fieldOk fs "projectId" decodeProjectID ∧
      fieldOk fs "title" decodeString ∧
      fieldOk fs "isAllDay" decodeBool ∧
      fieldOk fs "completedTime" decodeDT ∧
      fieldOk fs "content" decodeString) := by
  constructor
  · rintro ⟨x, hx⟩
    unfold decodeTaskPartA at hx
    cases g1 : decodeField fs "id" decodeTaskID ⟨""⟩ with
    | error e => simp [g1] at hx
    | ok a1 =>
      cases g2 : decodeField fs "projectId" decodeProjectID ⟨""⟩ with
      | error e => simp [g1, g2] at hx
      | ok a2 =>
        cases g3 : decodeField fs "title" decodeString "" with
        | error e => simp [g1, g2, g3] at hx
        | ok a3 =>
          cases g4 : decodeField fs "isAllDay" decodeBool false with
          | error e => simp [g1, g2, g3, g4] at hx
          | ok a4 =>
            cases g5 : decodeField fs "completedTime" decodeDT epochDT with
            | error e => simp [g1, g2, g3, g4, g5] at hx
            | ok a5 =>
              cases g6 : decodeField fs "content" decodeString "" with
              | error e => simp [g1, g2, g3, g4, g5, g6] at hx
              | ok a6 =>
                exact ⟨fieldOk_elim g1, fieldOk_elim g2, fieldOk_elim g3, fieldOk_elim g4, fieldOk_elim g5, fieldOk_elim g6⟩
  · rintro ⟨h1, h2, h3, h4, h5, h6⟩
    obtain ⟨a1, e1⟩ := fieldOk_intro fs "id" decodeTaskID ⟨""⟩ h1
    obtain ⟨a2, e2⟩ := fieldOk_intro fs "projectId" decodeProjectID ⟨""⟩ h2
    obtain ⟨a3, e3⟩ := fieldOk_intro fs "title" decodeString "" h3
    obtain ⟨a4, e4⟩ := fieldOk_intro fs "isAllDay" decodeBool false h4
    obtain ⟨a5, e5⟩ := fieldOk_intro fs "completedTime" decodeDT epochDT h5
    obtain ⟨a6, e6⟩ := fieldOk_intro fs "content" decodeString "" h6
    refine ⟨(a1, a2, a3, a4, a5, a6), ?_⟩
    simp [decodeTaskPartA, e1, e2, e3, e4, e5, e6]

theorem decodeTaskPartA_inv {fs : List (String × Json)}
    {x : _} (h : decodeTaskPartA fs = .ok x) :
    decodeField fs "id" decodeTaskID ⟨""⟩ = .ok x.1 ∧
    decodeField fs "projectId" decodeProjectID ⟨""⟩ = .ok x.2.1 ∧
    decodeField fs "title" decodeString "" = .ok x.2.2.1 ∧
    decodeField fs "isAllDay" decodeBool false = .ok x.2.2.2.1 ∧
    decodeField fs "completedTime" decodeDT epochDT = .ok x.2.2.2.2.1 ∧
    decodeField fs "content" decodeString "" = .ok x.2.2.2.2.2 := by
  unfold decodeTaskPartA at h
  cases g1 : decodeField fs "id" decodeTaskID ⟨""⟩ with
  | error e => simp [g1] at h
  | ok a1 =>
    cases g2 : decodeField fs "projectId" decodeProjectID ⟨""⟩ with
    | error e => simp [g1, g2] at h
    | ok a2 =>
      cases g3 : decodeField fs "title" decodeString "" with
      | error e => simp [g1, g2, g3] at h
      | ok a3 =>
        cases g4 : decodeField fs "isAllDay" decodeBool false with
        | error e => simp [g1, g2, g3, g4] at h
        | ok a4 =>
          cases g5 : decodeField fs "completedTime" decodeDT epochDT with
          | error e => simp [g1, g2, g3, g4, g5] at h
          | ok a5 =>
            cases g6 : decodeField fs "content" decodeString "" with
            | error e => simp [g1, g2, g3, g4, g5, g6] at h
            | ok a6 =>
              simp only [g1, g2, g3, g4, g5, g6] at h
              injection h with h2
              subst h2
              exact ⟨rfl, rfl, rfl, rfl, rfl, rfl⟩

theorem decodeTaskPartB_ok_iff (fs : List (String × Json)) :
    (∃ x, decodeTaskPartB fs = .ok x) ↔
      (fieldOk fs "desc" decodeString ∧
      fieldOk fs "dueDate" decodeDT ∧
      fieldOk fs "items" decodeSubtaskList ∧
      fieldOk fs "priority" decodePriority ∧
      fieldOk fs "reminders" decodeStringList ∧
      fieldOk fs "repeatFlag" decodeString) := by
  constructor
  · rintro ⟨x, hx⟩
    unfold decodeTaskPartB at hx
    cases g1 : decodeField fs "desc" decodeString "" with
    | error e => simp [g1] at hx
    | ok a1 =>
      cases g2 : decodeField fs "dueDate" decodeDT epochDT with
      | error e => simp [g1, g2] at hx
      | ok a2 =>
        cases g3 : decodeField fs "items" decodeSubtaskList [] with
        | error e => simp [g1, g2, g3] at hx
        | ok a3 =>
          cases g4 : decodeField fs "priority" decodePriority .none with
          | error e => simp [g1, g2, g3, g4] at hx
          | ok a4 =>
            cases g5 : decodeField fs "reminders" decodeStringList [] with
            | error e => simp [g1, g2, g3, g4, g5] at hx
            | ok a5 =>
              cases g6 : decodeField fs "repeatFlag" decodeString "" with
              | error e => simp [g1, g2, g3, g4, g5, g6] at hx
              | ok a6 =>
                exact ⟨fieldOk_elim g1, fieldOk_elim g2, fieldOk_elim g3, fieldOk_elim g4, fieldOk_elim g5, fieldOk_elim g6⟩
  · rintro ⟨h1, h2, h3, h4, h5, h6⟩
    obtain ⟨a1, e1⟩ := fieldOk_intro fs "desc" decodeString "" h1
    obtain ⟨a2, e2⟩ := fieldOk_intro fs "dueDate" decodeDT epochDT h2
    obtain ⟨a3, e3⟩ := fieldOk_intro fs "items" decodeSubtaskList [] h3
    obtain ⟨a4, e4⟩ := fieldOk_intro fs "priority" decodePriority .none h4
    obtain ⟨a5, e5⟩ := fieldOk_intro fs "reminders" decodeStringList [] h5
    obtain ⟨a6, e6⟩ := fieldOk_intro fs "repeatFlag" decodeString "" h6
    refine ⟨(a1, a2, a3, a4, a5, a6), ?_⟩
    simp [decodeTaskPartB, e1, e2, e3, e4, e5, e6]

theorem decodeTaskPartB_inv {fs : List (String × Json)}
    {x : _} (h : decodeTaskPartB fs = .ok x) :
    decodeField fs "desc" decodeString "" = .ok x.1 ∧
    decodeField fs "dueDate" decodeDT epochDT = .ok x.2.1 ∧
    decodeField fs "items" decodeSubtaskList [] = .ok x.2.2.1 ∧
    decodeField fs "priority" decodePriority .none = .ok x.2.2.2.1 ∧
    decodeField fs "reminders" decodeStringList [] = .ok x.2.2.2.2.1 ∧
    decodeField fs "repeatFlag" decodeString "" = .ok x.2.2.2.2.2 := by
  unfold decodeTaskPartB at h
  cases g1 : decodeField fs "desc" decodeString "" with
  | error e => simp [g1] at h
  | ok a1 =>
    cases g2 : decodeField fs "dueDate" decodeDT epochDT with
    | error e => simp [g1, g2] at h
    | ok a2 =>
      cases g3 : decodeField fs "items" decodeSubtaskList [] with
      | error e => simp [g1, g2, g3] at h
      | ok a3 =>
        cases g4 : decodeField fs "priority" decodePriority .none with
        | error e => simp [g1, g2, g3, g4] at h
        | ok a4 =>
          cases g5 : decodeField fs "reminders" decodeStringList [] with
          | error e => simp [g1, g2, g3, g4, g5] at h
          | ok a5 =>
            cases g6 : decodeField fs "repeatFlag" decodeString "" with
            | error e => simp [g1, g2, g3, g4, g5, g6] at h
            | ok a6 =>
              simp only [g1, g2, g3, g4, g5, g6] at h
              injection h with h2
              subst h2
              exact ⟨rfl, rfl, rfl, rfl, rfl, rfl⟩

theorem decodeTaskPartC_ok_iff (fs : List (String × Json)) :
    (∃ x, decodeTaskPartC fs = .ok x) ↔
      (fieldOk fs "sortOrder" decodeInt ∧
      fieldOk fs "startDate" decodeDT ∧
      fieldOk fs "status" decodeTaskStatus ∧
      fieldOk fs "timeZone" decodeString ∧
      fieldOk fs "tags" decodeStringList) := by
  constructor
  · rintro ⟨x, hx⟩
    unfold decodeTaskPartC at hx
    cases g1 : decodeField fs "sortOrder" decodeInt 0 with
    | error e => simp [g1] at hx
    | ok a1 =>
      cases g2 : decodeField fs "startDate" decodeDT epochDT with
      | error e => simp [g1, g2] at hx
      | ok a2 =>
        cases g3 : decodeField fs "status" decodeTaskStatus .normal with
        | error e => simp [g1, g2, g3] at hx
        | ok a3 =>
          cases g4 : decodeField fs "timeZone" decodeString "" with
          | error e => simp [g1, g2, g3, g4] at hx
          | ok a4 =>
            cases g5 : decodeField fs "tags" decodeStringList [] with
            | error e => simp [g1, g2, g3, g4, g5] at hx
            | ok a5 =>
              exact ⟨fieldOk_elim g1, fieldOk_elim g2, fieldOk_elim g3, fieldOk_elim g4, fieldOk_elim g5⟩
  · rintro ⟨h1, h2, h3, h4, h5⟩
    obtain ⟨a1, e1⟩ := fieldOk_intro fs "sortOrder" decodeInt 0 h1
    obtain ⟨a2, e2⟩ := fieldOk_intro fs "startDate" decodeDT epochDT h2
    obtain ⟨a3, e3⟩ := fieldOk_intro fs "status" decodeTaskStatus .normal h3
    obtain ⟨a4, e4⟩ := fieldOk_intro fs "timeZone" decodeString "" h4
    obtain ⟨a5, e5⟩ := fieldOk_intro fs "tags" decodeStringList [] h5
    refine ⟨(a1, a2, a3, a4, a5), ?_⟩
    simp [decodeTaskPartC, e1, e2, e3, e4, e5]

theorem decodeTaskPartC_inv {fs : List (String × Json)}
    {x : _} (h : decodeTaskPartC fs = .ok x) :
    decodeField fs "sortOrder" decodeInt 0 = .ok x.1 ∧
    decodeField fs "startDate" decodeDT epochDT = .ok x.2.1 ∧
    decodeField fs "status" decodeTaskStatus .normal = .ok x.2.2.1 ∧
    decodeField fs "timeZone" decodeString "" = .ok x.2.2.2.1 ∧
    decodeField fs "tags" decodeStringList [] = .ok x.2.2.2.2 := by
  unfold decodeTaskPartC at h
  cases g1 : decodeField fs "sortOrder" decodeInt 0 with
  | error e => simp [g1] at h
  | ok a1 =>
    cases g2 : decodeField fs "startDate" decodeDT epochDT with
    | error e => simp [g1, g2] at h
    | ok a2 =>
      cases g3 : decodeField fs "status" decodeTaskStatus .normal with
      | error e => simp [g1, g2, g3] at h
      | ok a3 =>
        cases g4 : decodeField fs "timeZone" decodeString "" with
        | error e => simp [g1, g2, g3, g4] at h
        | ok a4 =>
          cases g5 : decodeField fs "tags" decodeStringList [] with
          | error e => simp [g1, g2, g3, g4, g5] at h
          | ok a5 =>
            simp only [g1, g2, g3, g4, g5] at h
            injection h with h2
            subst h2
            exact ⟨rfl, rfl, rfl, rfl, rfl⟩

theorem decodeSubtaskPartA_ok_iff (fs : List (String × Json)) :
    (∃ x, decodeSubtaskPartA fs = .ok x) ↔
      (fieldOk fs "id" decodeSubtaskID ∧
      fieldOk fs "title" decodeString ∧
      fieldOk fs "status" decodeSubtaskStatus ∧
      fieldOk fs "completedTime" decodeDT) := by
  constructor
  · rintro ⟨x, hx⟩
    unfold decodeSubtaskPartA at hx
    cases g1 : decodeField fs "id" decodeSubtaskID ⟨""⟩ with
    | error e => simp [g1] at hx
    | ok a1 =>
      cases g2 : decodeField fs "title" decodeString "" with
      | error e => simp [g1, g2] at hx
      | ok a2 =>
        cases g3 : decodeField fs "status" decodeSubtaskStatus .normal with
        | error e => simp [g1, g2, g3] at hx
        | ok a3 =>
          cases g4 : decodeField fs "completedTime" decodeDT epochDT with
          | error e => simp [g1, g2, g3, g4] at hx
          | ok a4 =>
            exact ⟨fieldOk_elim g1, fieldOk_elim g2, fieldOk_elim g3, fieldOk_elim g4⟩
  · rintro ⟨h1, h2, h3, h4⟩
    obtain ⟨a1, e1⟩ := fieldOk_intro fs "id" decodeSubtaskID ⟨""⟩ h1
    obtain ⟨a2, e2⟩ := fieldOk_intro fs "title" decodeString "" h2
    obtain ⟨a3, e3⟩ := fieldOk_intro fs "status" decodeSubtaskStatus .normal h3
    obtain ⟨a4, e4⟩ := fieldOk_intro fs "completedTime" decodeDT epochDT h4
    refine ⟨(a1, a2, a3, a4), ?_⟩
    simp [decodeSubtaskPartA, e1, e2, e3, e4]

theorem decodeSubtaskPartA_inv {fs : List (String × Json)}
    {x : _} (h : decodeSubtaskPartA fs = .ok x) :
    decodeField fs "id" decodeSubtaskID ⟨""⟩ = .ok x.1 ∧
    decodeField fs "title" decodeString "" = .ok x.2.1 ∧
    decodeField fs "status" decodeSubtaskStatus .normal = .ok x.2.2.1 ∧
    decodeField fs "completedTime" decodeDT epochDT = .ok x.2.2.2 := by
  unfold decodeSubtaskPartA at h
  cases g1 : decodeField fs "id" decodeSubtaskID ⟨""⟩ with
  | error e => simp [g1] at h
  | ok a1 =>
    cases g2 : decodeField fs "title" decodeString "" with
    | error e => simp [g1, g2] at h
    | ok a2 =>
      cases g3 : decodeField fs "status" decodeSubtaskStatus .normal with
      | error e => simp [g1, g2, g3] at h
      | ok a3 =>
        cases g4 : decodeField fs "completedTime" decodeDT epochDT with
        | error e => simp [g1, g2, g3, g4] at h
        | ok a4 =>
          simp only [g1, g2, g3, g4] at h
          injection h with h2
          subst h2
          exact ⟨rfl, rfl, rfl, rfl⟩

theorem decodeSubtaskPartB_ok_iff (fs : List (String × Json)) :
    (∃ x, decodeSubtaskPartB fs = .ok x) ↔
      (fieldOk fs "isAllDay" decodeBool ∧
      fieldOk fs "sortOrder" decodeInt ∧
      fieldOk fs "startDate" decodeDT ∧
      fieldOk fs "timeZone" decodeString) := by
  constructor
  · rintro ⟨x, hx⟩
    unfold decodeSubtaskPartB at hx
    cases g1 : decodeField fs "isAllDay" decodeBool false with
    | error e => simp [g1] at hx
    | ok a1 =>
      cases g2 : decodeField fs "sortOrder" decodeInt 0 with
      | error e => simp [g1, g2] at hx
      | ok a2 =>
        cases g3 : decodeField fs "startDate" decodeDT epochDT with
        | error e => simp [g1, g2, g3] at hx
        | ok a3 =>
          cases g4 : decodeField fs "timeZone" decodeString "" with
          | error e => simp [g1, g2, g3, g4] at hx
          | ok a4 =>
            exact ⟨fieldOk_elim g1, fieldOk_elim g2, fieldOk_elim g3, fieldOk_elim g4⟩
  · rintro ⟨h1, h2, h3, h4⟩
    obtain ⟨a1, e1⟩ := fieldOk_intro fs "isAllDay" decodeBool false h1
    obtain ⟨a2, e2⟩ := fieldOk_intro fs "sortOrder" decodeInt 0 h2
    obtain ⟨a3, e3⟩ := fieldOk_intro fs "startDate" decodeDT epochDT h3
    obtain ⟨a4, e4⟩ := fieldOk_intro fs "timeZone" decodeString "" h4
    refine ⟨(a1, a2, a3, a4), ?_⟩
    simp [decodeSubtaskPartB, e1, e2, e3, e4]

theorem decodeSubtaskPartB_inv {fs : List (String × Json)}
    {x : _} (h : decodeSubtaskPartB fs = .ok x) :
    decodeField fs "isAllDay" decodeBool false = .ok x.1 ∧
    decodeField fs "sortOrder" decodeInt 0 = .ok x.2.1 ∧
    decodeField fs "startDate" decodeDT epochDT = .ok x.2.2.1 ∧
    decodeField fs "timeZone" decodeString "" = .ok x.2.2.2 := by
  unfold decodeSubtaskPartB at h
  cases g1 : decodeField fs "isAllDay" decodeBool false with
  | error e => simp [g1] at h
  | ok a1 =>
    cases g2 : decodeField fs "sortOrder" decodeInt 0 with
    | error e => simp [g1, g2] at h
    | ok a2 =>
      cases g3 : decodeField fs "startDate" decodeDT epochDT with
      | error e => simp [g1, g2, g3] at h
      | ok a3 =>
        cases g4 : decodeField fs "timeZone" decodeString "" with
        | error e => simp [g1, g2, g3, g4] at h
        | ok a4 =>
          simp only [g1, g2, g3, g4] at h
          injection h with h2
          subst h2
          exact ⟨rfl, rfl, rfl, rfl⟩

theorem decodeProjectPartA_ok_iff (fs : List (String × Json)) :
    (∃ x, decodeProjectPartA fs = .ok x) ↔
      (fieldOk fs "id" decodeProjectID ∧
      fieldOk fs "name" decodeString ∧
      fieldOk fs "color" decodeString ∧
      fieldOk fs "sortOrder" decodeInt ∧
      fieldOk fs "closed" decodeBool) := by
  constructor
  · rintro ⟨x, hx⟩
    unfold decodeProjectPartA at hx
    cases g1 : decodeField fs "id" decodeProjectID ⟨""⟩ with
    | error e => simp [g1] at hx
    | ok a1 =>
      cases g2 : decodeField fs "name" decodeString "" with
      | error e => simp [g1, g2] at hx
      | ok a2 =>
        cases g3 : decodeField fs "color" decodeString "" with
        | error e => simp [g1, g2, g3] at hx
        | ok a3 =>
          cases g4 : decodeField fs "sortOrder" decodeInt 0 with
          | error e => simp [g1, g2, g3, g4] at hx
          | ok a4 =>
            cases g5 : decodeField fs "closed" decodeBool false with
            | error e => simp [g1, g2, g3, g4, g5] at hx
            | ok a5 =>
              exact ⟨fieldOk_elim g1, fieldOk_elim g2, fieldOk_elim g3, fieldOk_elim g4, fieldOk_elim g5⟩
  · rintro ⟨h1, h2, h3, h4, h5⟩
    obtain ⟨a1, e1⟩ := fieldOk_intro fs "id" decodeProjectID ⟨""⟩ h1
    obtain ⟨a2, e2⟩ := fieldOk_intro fs "name" decodeString "" h2
    obtain ⟨a3, e3⟩ := fieldOk_intro fs "color" decodeString "" h3
    obtain ⟨a4, e4⟩ := fieldOk_intro fs "sortOrder" decodeInt 0 h4
    obtain ⟨a5, e5⟩ := fieldOk_intro fs "closed" decodeBool false h5
    refine ⟨(a1, a2, a3, a4, a5), ?_⟩
    simp [decodeProjectPartA, e1, e2, e3, e4, e5]

theorem decodeProjectPartA_inv {fs : List (String × Json)}
    {x : _} (h : decodeProjectPartA fs = .ok x) :
    decodeField fs "id" decodeProjectID ⟨""⟩ = .ok x.1 ∧
    decodeField fs "name" decodeString "" = .ok x.2.1 ∧
    decodeField fs "color" decodeString "" = .ok x.2.2.1 ∧
    decodeField fs "sortOrder" decodeInt 0 = .ok x.2.2.2.1 ∧
    decodeField fs "closed" decodeBool false = .ok x.2.2.2.2 := by
  unfold decodeProjectPartA at h
  cases g1 : decodeField fs "id" decodeProjectID ⟨""⟩ with
  | error e => simp [g1] at h
  | ok a1 =>
    cases g2 : decodeField fs "name" decodeString "" with
    | error e => simp [g1, g2] at h
    | ok a2 =>
      cases g3 : decodeField fs "color" decodeString "" with
      | error e => simp [g1, g2, g3] at h
      | ok a3 =>
        cases g4 : decodeField fs "sortOrder" decodeInt 0 with
        | error e => simp [g1, g2, g3, g4] at h
        | ok a4 =>
          cases g5 : decodeField fs "closed" decodeBool false with
          | error e => simp [g1, g2, g3, g4, g5] at h
          | ok a5 =>
            simp only [g1, g2, g3, g4, g5] at h
            injection h with h2
            subst h2
            exact ⟨rfl, rfl, rfl, rfl, rfl⟩

theorem decodeProjectPartB_ok_iff (fs : List (String × Json)) :
    (∃ x, decodeProjectPartB fs = .ok x) ↔
      (fieldOk fs "groupId" decodeGroupID ∧
      fieldOk fs "viewMode" decodeViewMode ∧
      fieldOk fs "permission" decodePermissions ∧
      fieldOk fs "kind" decodeKind) := by
  constructor
  · rintro ⟨x, hx⟩
    unfold decodeProjectPartB at hx
    cases g1 : decodeField fs "groupId" decodeGroupID ⟨""⟩ with
    | error e => simp [g1] at hx
    | ok a1 =>
      cases g2 : decodeField fs "viewMode" decodeViewMode .list with
      | error e => simp [g1, g2] at hx
      | ok a2 =>
        cases g3 : decodeField fs "permission" decodePermissions .read with
        | error e => simp [g1, g2, g3] at hx
        | ok a3 =>
          cases g4 : decodeField fs "kind" decodeKind .task with
          | error e => simp [g1, g2, g3, g4] at hx
          | ok a4 =>
            exact ⟨fieldOk_elim g1, fieldOk_elim g2, fieldOk_elim g3, fieldOk_elim g4⟩
  · rintro ⟨h1, h2, h3, h4⟩
    obtain ⟨a1, e1⟩ := fieldOk_intro fs "groupId" decodeGroupID ⟨""⟩ h1
    obtain ⟨a2, e2⟩ := fieldOk_intro fs "viewMode" decodeViewMode .list h2
    obtain ⟨a3, e3⟩ := fieldOk_intro fs "permission" decodePermissions .read h3
    obtain ⟨a4, e4⟩ := fieldOk_intro fs "kind" decodeKind .task h4
    refine ⟨(a1, a2, a3, a4), ?_⟩
    simp [decodeProjectPartB, e1, e2, e3, e4]

theorem decodeProjectPartB_inv {fs : List (String × Json)}
    {x : _} (h : decodeProjectPartB fs = .ok x) :
    decodeField fs "groupId" decodeGroupID ⟨""⟩ = .ok x.1 ∧
    decodeField fs "viewMode" decodeViewMode .list = .ok x.2.1 ∧
    decodeField fs "permission" decodePermissions .read = .ok x.2.2.1 ∧
    decodeField fs "kind" decodeKind .task = .ok x.2.2.2 := by
  unfold decodeProjectPartB at h
  cases g1 : decodeField fs "groupId" decodeGroupID ⟨""⟩ with
  | error e => simp [g1] at h
  | ok a1 =>
    cases g2 : decodeField fs "viewMode" decodeViewMode .list with
    | error e => simp [g1, g2] at h
    | ok a2 =>
      cases g3 : decodeField fs "permission" decodePermissions .read with
      | error e => simp [g1, g2, g3] at h
      | ok a3 =>
        cases g4 : decodeField fs "kind" decodeKind .task with
        | error e => simp [g1, g2, g3, g4] at h
        | ok a4 =>
          simp only [g1, g2, g3, g4] at h
          injection h with h2
          subst h2
          exact ⟨rfl, rfl, rfl, rfl⟩


theorem decodeField_none {α : Type} (fs : List (String × Json)) (n : String)
    (dec : Json → Except String α) (d : α) (h : getField fs n = none) :
    decodeField fs n dec d = .ok d := by
  simp [decodeField, h]

theorem decodeField_missing {α : Type} {fs : List (String × Json)}
    {n : String} (dec : Json → Except String α) {d a : α}
    (hnone : getField fs n = none) (h : decodeField fs n dec d = .ok a) :
    a = d := by
  rw [decodeField_none fs n dec d hnone] at h
  injection h with h2
  exact h2.symm

/-- A successfully decoded `Task` consists exactly of its per-field decode
results (absent fields defaulted by `decodeField`). -/
theorem decodeTask_fields {fs : List (String × Json)} {t : Task}
    (h : decodeTask (.obj fs) = .ok t) :
    decodeField fs "id" decodeTaskID ⟨""⟩ = .ok t.id ∧
    decodeField fs "projectId" decodeProjectID ⟨""⟩ = .ok t.project_id ∧
    decodeField fs "title" decodeString "" = .ok t.title ∧
    decodeField fs "isAllDay" decodeBool false = .ok t.is_all_day ∧
    decodeField fs "completedTime" decodeDT epochDT = .ok t.completed_time ∧
    decodeField fs "content" decodeString "" = .ok t.content ∧
    decodeField fs "desc" decodeString "" = .ok t.desc ∧
    decodeField fs "dueDate" decodeDT epochDT = .ok t.due_date ∧
    decodeField fs "items" decodeSubtaskList [] = .ok t.subtasks ∧
    decodeField fs "priority" decodePriority .none = .ok t.priority ∧
    decodeField fs "reminders" decodeStringList [] = .ok t.reminders ∧
    decodeField fs "repeatFlag" decodeString "" = .ok t.repeat_flag ∧
    decodeField fs "sortOrder" decodeInt 0 = .ok t.sort_order ∧
    decodeField fs "startDate" decodeDT epochDT = .ok t.start_date ∧
    decodeField fs "status" decodeTaskStatus .normal = .ok t.status ∧
    decodeField fs "timeZone" decodeString "" = .ok t.time_zone ∧
    decodeField fs "tags" decodeStringList [] = .ok t.tags := by
  cases hA : decodeTaskPartA fs with
  | error e => simp [decodeTask, hA] at h
  | ok a =>
    cases hB : decodeTaskPartB fs with
    | error e => simp [decodeTask, hA, hB] at h
    | ok b =>
      cases hC : decodeTaskPartC fs with
      | error e => simp [decodeTask, hA, hB, hC] at h
      | ok c =>
        simp only [decodeTask, hA, hB, hC] at h
        injection h with h2
        subst h2
        obtain ⟨e1, e2, e3, e4, e5, e6⟩ := decodeTaskPartA_inv hA
        obtain ⟨f1, f2, f3, f4, f5, f6⟩ := decodeTaskPartB_inv hB
        obtain ⟨k1, k2, k3, k4, k5⟩ := decodeTaskPartC_inv hC
        exact ⟨e1, e2, e3, e4, e5, e6, f1, f2, f3, f4, f5, f6,
          k1, k2, k3, k4, k5⟩

theorem decodeSubtask_fields {fs : List (String × Json)} {s : Subtask}
    (h : decodeSubtask (.obj fs) = .ok s) :
    decodeField fs "id" decodeSubtaskID ⟨""⟩ = .ok s.id ∧
    decodeField fs "title" decodeString "" = .ok s.title ∧
    decodeField fs "status" decodeSubtaskStatus .normal = .ok s.status ∧
    decodeField fs "completedTime" decodeDT epochDT = .ok s.completed_time ∧
    decodeField fs "isAllDay" decodeBool false = .ok s.is_all_day ∧
    decodeField fs "sortOrder" decodeInt 0 = .ok s.sort_order ∧
    decodeField fs "startDate" decodeDT epochDT = .ok s.start_date ∧
    decodeField fs "timeZone" decodeString "" = .ok s.time_zone := by
  cases hA : decodeSubtaskPartA fs with
  | error e => simp [decodeSubtask, hA] at h
  | ok a =>
    cases hB : decodeSubtaskPartB fs with
    | error e => simp [decodeSubtask, hA, hB] at h
    | ok b =>
      simp only [decodeSubtask, hA, hB] at h
      injection h with h2
      subst h2
      obtain ⟨e1, e2, e3, e4⟩ := decodeSubtaskPartA_inv hA
      obtain ⟨f1, f2, f3, f4⟩ := decodeSubtaskPartB_inv hB
      exact ⟨e1, e2, e3, e4, f1, f2, f3, f4⟩

theorem decodeProject_fields {fs : List (String × Json)} {p : Project}
    (h : decodeProject (.obj fs) = .ok p) :
    decodeField fs "id" decodeProjectID ⟨""⟩ = .ok p.id ∧
    decodeField fs "name" decodeString "" = .ok p.name ∧
    decodeField fs "color" decodeString "" = .ok p.color ∧
    decodeField fs "sortOrder" decodeInt 0 = .ok p.sort_order ∧
    decodeField fs "closed" decodeBool false = .ok p.closed ∧
    decodeField fs "groupId" decodeGroupID ⟨""⟩ = .ok p.group_id ∧
    decodeField fs "viewMode" decodeViewMode .list = .ok p.view_mode ∧
    decodeField fs "permission" decodePermissions .read = .ok p.permission ∧
    decodeField fs "kind" decodeKind .task = .ok p.kind := by
  cases hA : decodeProjectPartA fs with
  | error e => simp [decodeProject, hA] at h
  | ok a =>
    cases hB : decodeProjectPartB fs with
    | error e => simp [decodeProject, hA, hB] at h
    | ok b =>
      simp only [decodeProject, hA, hB] at h
      injection h with h2
      subst h2
      obtain ⟨e1, e2, e3, e4, e5⟩ := decodeProjectPartA_inv hA
      obtain ⟨f1, f2, f3, f4⟩ := decodeProjectPartB_inv hB
      exact ⟨e1, e2, e3, e4, e5, f1, f2, f3, f4⟩


theorem decodeTask_ok_iff (fs : List (String × Json)) :
    (∃ t, decodeTask (.obj fs) = .ok t) ↔
      (fieldOk fs "id" decodeTaskID ∧
       fieldOk fs "projectId" decodeProjectID ∧
       fieldOk fs "title" decodeString ∧
       fieldOk fs "isAllDay" decodeBool ∧
       fieldOk fs "completedTime" decodeDT ∧
       fieldOk fs "content" decodeString ∧
       fieldOk fs "desc" decodeString ∧
       fieldOk fs "dueDate" decodeDT ∧
       fieldOk fs "items" decodeSubtaskList ∧
       fieldOk fs "priority" decodePriority ∧
       fieldOk fs "reminders" decodeStringList ∧
       fieldOk fs "repeatFlag" decodeString ∧
       fieldOk fs "sortOrder" decodeInt ∧
       fieldOk fs "startDate" decodeDT ∧
       fieldOk fs "status" decodeTaskStatus ∧
       fieldOk fs "timeZone" decodeString ∧
       fieldOk fs "tags" decodeStringList) := by
  constructor
  · rintro ⟨t, ht⟩
    obtain ⟨e1, e2, e3, e4, e5, e6, e7, e8, e9, e10, e11, e12, e13, e14,
      e15, e16, e17⟩ := decodeTask_fields ht
    exact ⟨fieldOk_elim e1, fieldOk_elim e2, fieldOk_elim e3, fieldOk_elim e4,
      fieldOk_elim e5, fieldOk_elim e6, fieldOk_elim e7, fieldOk_elim e8,
      fieldOk_elim e9, fieldOk_elim e10, fieldOk_elim e11, fieldOk_elim e12,
      fieldOk_elim e13, fieldOk_elim e14, fieldOk_elim e15, fieldOk_elim e16,
      fieldOk_elim e17⟩
  · rintro ⟨h1, h2, h3, h4, h5, h6, h7, h8, h9, h10, h11, h12, h13, h14,
      h15, h16, h17⟩
    obtain ⟨a, hA⟩ := (decodeTaskPartA_ok_iff fs).mpr ⟨h1, h2, h3, h4, h5, h6⟩
    obtain ⟨b, hB⟩ := (decodeTaskPartB_ok_iff fs).mpr
      ⟨h7, h8, h9, h10, h11, h12⟩
    obtain ⟨c, hC⟩ := (decodeTaskPartC_ok_iff fs).mpr ⟨h13, h14, h15, h16, h17⟩
    refine ⟨⟨a.1, a.2.1, a.2.2.1, a.2.2.2.1, a.2.2.2.2.1, a.2.2.2.2.2,
      b.1, b.2.1, b.2.2.1, b.2.2.2.1, b.2.2.2.2.1, b.2.2.2.2.2,
      c.1, c.2.1, c.2.2.1, c.2.2.2.1, c.2.2.2.2⟩, ?_⟩
    simp [decodeTask, hA, hB, hC]

theorem decodeSubtask_ok_iff (fs : List (String × Json)) :
    (∃ s, decodeSubtask (.obj fs) = .ok s) ↔
      (fieldOk fs "id" decodeSubtaskID ∧
       fieldOk fs "title" decodeString ∧
       fieldOk fs "status" decodeSubtaskStatus ∧
       fieldOk fs "completedTime" decodeDT ∧
       fieldOk fs "isAllDay" decodeBool ∧
       fieldOk fs "sortOrder" decodeInt ∧
       fieldOk fs "startDate" decodeDT ∧
       fieldOk fs "timeZone" decodeString) := by
  constructor
  · rintro ⟨s, hs⟩
    obtain ⟨e1, e2, e3, e4, e5, e6, e7, e8⟩ := decodeSubtask_fields hs
    exact ⟨fieldOk_elim e1, fieldOk_elim e2, fieldOk_elim e3, fieldOk_elim e4,
      fieldOk_elim e5, fieldOk_elim e6, fieldOk_elim e7, fieldOk_elim e8⟩
  · rintro ⟨h1, h2, h3, h4, h5, h6, h7, h8⟩
    obtain ⟨a, hA⟩ := (decodeSubtaskPartA_ok_iff fs).mpr ⟨h1, h2, h3, h4⟩
    obtain ⟨b, hB⟩ := (decodeSubtaskPartB_ok_iff fs).mpr ⟨h5, h6, h7, h8⟩
    refine ⟨⟨a.1, a.2.1, a.2.2.1, a.2.2.2, b.1, b.2.1, b.2.2.1, b.2.2.2⟩, ?_⟩
    simp [decodeSubtask, hA, hB]

theorem decodeProject_ok_iff (fs : List (String × Json)) :
    (∃ p, decodeProject (.obj fs) = .ok p) ↔
      (fieldOk fs "id" decodeProjectID ∧
       fieldOk fs "name" decodeString ∧
       fieldOk fs "color" decodeString ∧
       fieldOk fs "sortOrder" decodeInt ∧
       fieldOk fs "closed" decodeBool ∧
       fieldOk fs "groupId" decodeGroupID ∧
       fieldOk fs "viewMode" decodeViewMode ∧
       fieldOk fs "permission" decodePermissions ∧
       fieldOk fs "kind" decodeKind) := by
  constructor
  · rintro ⟨p, hp⟩
    obtain ⟨e1, e2, e3, e4, e5, e6, e7, e8, e9⟩ := decodeProject_fields hp
    exact ⟨fieldOk_elim e1, fieldOk_elim e2, fieldOk_elim e3, fieldOk_elim e4,
      fieldOk_elim e5, fieldOk_elim e6, fieldOk_elim e7, fieldOk_elim e8,
      fieldOk_elim e9⟩
  · rintro ⟨h1, h2, h3, h4, h5, h6, h7, h8, h9⟩
    obtain ⟨a, hA⟩ := (decodeProjectPartA_ok_iff fs).mpr ⟨h1, h2, h3, h4, h5⟩
    obtain ⟨b, hB⟩ := (decodeProjectPartB_ok_iff fs).mpr ⟨h6, h7, h8, h9⟩
    refine ⟨⟨a.1, a.2.1, a.2.2.1, a.2.2.2.1, a.2.2.2.2,
      b.1, b.2.1, b.2.2.1, b.2.2.2⟩, ?_⟩
    simp [decodeProject, hA, hB]


/-- C10: deserializing a `Task`, `Subtask` or `Project` never fails because
a field is absent — decoding succeeds exactly when every present schema
field is well-formed, and decoding the empty object yields the all-default
record (epoch timestamps, empty strings, `Normal` status, empty lists,
empty identifiers); a field that is absent from the object always takes
its default in the result (shown for the highlighted fields), so failure
can only come from a field that is present with a malformed value. -/
theorem claim_C10_default_on_missing :
    decodeTask (.obj []) = .ok taskDefault ∧
    decodeSubtask (.obj []) = .ok subtaskDefault ∧
    decodeProject (.obj []) = .ok projectDefault ∧
    (∀ fs, (∃ t, decodeTask (.obj fs) = .ok t) ↔
      (fieldOk fs "id" decodeTaskID ∧
       fieldOk fs "projectId" decodeProjectID ∧
       fieldOk fs "title" decodeString ∧
       fieldOk fs "isAllDay" decodeBool ∧
       fieldOk fs "completedTime" decodeDT ∧
       fieldOk fs "content" decodeString ∧
       fieldOk fs "desc" decodeString ∧
       fieldOk fs "dueDate" decodeDT ∧
       fieldOk fs "items" decodeSubtaskList ∧
       fieldOk fs "priority" decodePriority ∧
       fieldOk fs "reminders" decodeStringList ∧
       fieldOk fs "repeatFlag" decodeString ∧
       fieldOk fs "sortOrder" decodeInt ∧
       fieldOk fs "startDate" decodeDT ∧
       fieldOk fs "status" decodeTaskStatus ∧
       fieldOk fs "timeZone" decodeString ∧
       fieldOk fs "tags" decodeStringList)) ∧
    (∀ fs, (∃ s, decodeSubtask (.obj fs) = .ok s) ↔
      (fieldOk fs "id" decodeSubtaskID ∧
       fieldOk fs "title" decodeString ∧
       fieldOk fs "status" decodeSubtaskStatus ∧
       fieldOk fs "completedTime" decodeDT ∧
       fieldOk fs "isAllDay" decodeBool ∧
       fieldOk fs "sortOrder" decodeInt ∧
       fieldOk fs "startDate" decodeDT ∧
       fieldOk fs "timeZone" decodeString)) ∧
    (∀ fs, (∃ p, decodeProject (.obj fs) = .ok p) ↔
      (fieldOk fs "id" decodeProjectID ∧
       fieldOk fs "name" decodeString ∧
       fieldOk fs "color" decodeString ∧
       fieldOk fs "sortOrder" decodeInt ∧
       fieldOk fs "closed" decodeBool ∧
       fieldOk fs "groupId" decodeGroupID ∧
       fieldOk fs "viewMode" decodeViewMode ∧
       fieldOk fs "permission" decodePermissions ∧
       fieldOk fs "kind" decodeKind)) ∧
    (∀ fs t, decodeTask (.obj fs) = .ok t →
      getField fs "dueDate" = none → t.due_date = epochDT) ∧
    (∀ fs t, decodeTask (.obj fs) = .ok t →
      getField fs "status" = none → t.status = TaskStatus.normal) ∧
    (∀ fs t, decodeTask (.obj fs) = .ok t →
      getField fs "title" = none → t.title = "") ∧
    (∀ fs t, decodeTask (.obj fs) = .ok t →
      getField fs "items" = none → t.subtasks = []) ∧
    (∀ fs t, decodeTask (.obj fs) = .ok t →
      getField fs "id" = none → t.id = ⟨""⟩) ∧
    (∀ fs s, decodeSubtask (.obj fs) = .ok s →
      getField fs "completedTime" = none → s.completed_time = epochDT) ∧
    (∀ fs p, decodeProject (.obj fs) = .ok p →
      getField fs "viewMode" = none → p.view_mode = ProjectViewMode.list) := by
  refine ⟨rfl, rfl, rfl, decodeTask_ok_iff, decodeSubtask_ok_iff,
    decodeProject_ok_iff, ?_, ?_, ?_, ?_, ?_, ?_, ?_⟩
  · intro fs t h hnone
    obtain ⟨-, -, -, -, -, -, -, h8, -, -, -, -, -, -, -, -, -⟩ :=
      decodeTask_fields h
    exact decodeField_missing decodeDT hnone h8
  · intro fs t h hnone
    obtain ⟨-, -, -, -, -, -, -, -, -, -, -, -, -, -, h15, -, -⟩ :=
      decodeTask_fields h
    exact decodeField_missing decodeTaskStatus hnone h15
  · intro fs t h hnone
    obtain ⟨-, -, h3, -, -, -, -, -, -, -, -, -, -, -, -, -, -⟩ :=
      decodeTask_fields h
    exact decodeField_missing decodeString hnone h3
  · intro fs t h hnone
    obtain ⟨-, -, -, -, -, -, -, -, h9, -, -, -, -, -, -, -, -⟩ :=
      decodeTask_fields h
    exact decodeField_missing decodeSubtaskList hnone h9
  · intro fs t h hnone
    obtain ⟨h1, -, -, -, -, -, -, -, -, -, -, -, -, -, -, -, -⟩ :=
      decodeTask_fields h
    exact decodeField_missing decodeTaskID hnone h1
  · intro fs s h hnone
    obtain ⟨-, -, -, h4, -, -, -, -⟩ := decodeSubtask_fields h
    exact decodeField_missing decodeDT hnone h4
  · intro fs p h hnone
    obtain ⟨-, -, -, -, -, -, h7, -, -⟩ := decodeProject_fields h
    exact decodeField_missing decodeViewMode hnone h7

theorem claim_C10_default_on_missing_witness :
    decodeTask (.obj [("title", Json.str "x")]) =
      .ok { taskDefault with title := "x" } ∧
    ({ taskDefault with title := "x" } : Task).due_date = epochDT := by
  have h := claim_C10_default_on_missing
  obtain ⟨-, -, -, -, -, -, hdue, -⟩ := h
  exact ⟨rfl, hdue [("title", Json.str "x")] { taskDefault with title := "x" }
    rfl rfl⟩

end Ticks
